import Mathlib

/-!
# The mutator fast path of Whippet (`gc-api.h`)

A shallow embedding of the inline allocation routines and of the write
barrier of `src/gc-api.h`, and theorems about them.

* Memory is one flat, byte-addressed store (`Mem`): the mutator structure,
  the heap, the alloc table and the card table all live in it, as they do
  for the C code, which reaches all of them through raw addresses.
* Machine words (`uintptr_t`, `size_t`) are natural numbers below
  `WORD = 2 ^ 64`; additions, subtractions and complements wrap explicitly.
  A word in memory is eight bytes, least significant byte first.
* The capability layer (`gc-config.h`, the `gc_allocator_*` and
  `gc_small_write_barrier_*` functions) is not part of the file under study:
  its constants are the fields of `gc_config`.  The out-of-line allocators
  `gc_allocate_small` and `gc_allocate_large` are declared in `gc-api.h` and
  defined by the collector: they are the fields of `gc_backend`.
* `GC_CRASH ()` and a division by zero end a call with a `Fault`.
-/

set_option linter.unusedVariables false

namespace Whippet

/-! ## Machine words -/

/-- Number of values of a machine word (`uintptr_t`, `size_t`). -/
def WORD : Nat := 2 ^ 64

/-- Addition of machine words. -/
def wadd (a b : Nat) : Nat := (a + b) % WORD

/-- Subtraction of machine words. -/
def wsub (a b : Nat) : Nat := (a % WORD + (WORD - b % WORD)) % WORD

/-- Bitwise complement of a machine word (the C operator `~`). -/
def wnot (a : Nat) : Nat := WORD - 1 - a % WORD

/-! ## Memory -/

/-- Byte-addressed memory: the byte stored at each address. -/
abbrev Mem := Nat → Nat

/-- Read of one byte (`uint8_t`). -/
def load8 (m : Mem) (a : Nat) : Nat := m (a % WORD) % 256

/-- Write of one byte (`uint8_t`). -/
def store8 (m : Mem) (a v : Nat) : Mem :=
  fun x => if x = a % WORD then v % 256 else m x

/-- Read of `n` consecutive bytes from address `a`, least significant first. -/
def load_bytes (m : Mem) (a : Nat) : Nat → Nat
  | 0 => 0
  | n + 1 => load8 m a + 256 * load_bytes m (a + 1) n

/-- Write of the `n` low bytes of `v` from address `a`, least significant first. -/
def store_bytes (m : Mem) (a v : Nat) : Nat → Mem
  | 0 => m
  | n + 1 => store_bytes (store8 m a v) (a + 1) (v / 256) n

/-- Read of a machine word (`*(uintptr_t*)a`). -/
def load_word (m : Mem) (a : Nat) : Nat := load_bytes m a 8

/-- Write of a machine word (`*(uintptr_t*)a = v`). -/
def store_word (m : Mem) (a v : Nat) : Mem := store_bytes m a v 8

/-- The C library call `memset (a, v, n)`. -/
def memset (m : Mem) (a v : Nat) : Nat → Mem
  | 0 => m
  | n + 1 => memset (store8 m a v) (a + 1) v n

/-! ## Configuration, backend, outcomes -/

/-- Ways in which a call ends without returning. -/
inductive Fault where
  | gc_crash
  | division_by_zero
  deriving DecidableEq, Repr

/-- Values of `gc_allocator_kind ()`; `other` stands for any value that is
none of the three named ones. -/
inductive AllocatorKind where
  | GC_ALLOCATOR_INLINE_BUMP_POINTER
  | GC_ALLOCATOR_INLINE_FREELIST
  | GC_ALLOCATOR_INLINE_NONE
  | other (tag : Nat)
  deriving DecidableEq, Repr

/-- Values of `gc_small_write_barrier_kind ()`; `other` stands for any value
that is none of the two named ones. -/
inductive WriteBarrierKind where
  | GC_WRITE_BARRIER_NONE
  | GC_WRITE_BARRIER_CARD
  | other (tag : Nat)
  deriving DecidableEq, Repr

/-- The constants of the capability layer that `gc-api.h` consults.
`gc_debug` says whether `GC_ASSERT` checks its condition (and crashes when it
fails) or expands to nothing. -/
structure gc_config where
  gc_debug : Bool
  gc_allocator_kind : AllocatorKind
  gc_allocator_large_threshold : Nat
  gc_allocator_small_granule_size : Nat
  gc_allocator_allocation_pointer_offset : Nat
  gc_allocator_allocation_limit_offset : Nat
  gc_allocator_freelist_offset : Nat → Nat
  gc_allocator_alloc_table_alignment : Nat
  gc_allocator_alloc_table_begin_pattern : Nat
  gc_allocator_alloc_table_end_pattern : Nat
  gc_allocator_needs_clear : Bool
  gc_small_write_barrier_kind : WriteBarrierKind
  gc_small_write_barrier_card_table_alignment : Nat
  gc_small_write_barrier_card_size : Nat

/-- The out-of-line allocators of the collector: from a memory, a mutator
address and a size to a fault or a new memory and the allocated address. -/
structure gc_backend where
  gc_allocate_small : Mem → Nat → Nat → Except Fault (Mem × Nat)
  gc_allocate_large : Mem → Nat → Nat → Except Fault (Mem × Nat)

/-- Modelled from the spec: `gc-ref.h` is not part of the sources; a heap
reference is an opaque value denoting the address of a heap object. -/
structure gc_ref where
  value : Nat
  deriving DecidableEq, Repr

/-- Modelled from the spec: `gc-edge.h` is not part of the sources; an edge
denotes one pointer-shaped storage location. -/
structure gc_edge where
  dst : Nat
  deriving DecidableEq, Repr

/-- Modelled from the spec: the address a heap reference denotes. -/
def gc_ref_value (r : gc_ref) : Nat := r.value

/-- Modelled from the spec: the object pointer of a heap reference. -/
def gc_ref_heap_object (r : gc_ref) : Nat := gc_ref_value r

/-- Modelled from the spec: the heap reference of an object pointer. -/
def gc_ref_from_heap_object (p : Nat) : gc_ref := ⟨p⟩

/-! ## The functions of `gc-api.h` -/

/-- The function `gc_clear_fresh_allocation`. -/
def gc_clear_fresh_allocation (cfg : gc_config) (m : Mem) (obj : gc_ref) (size : Nat) : Mem :=
  if !cfg.gc_allocator_needs_clear then m
  else memset m (gc_ref_heap_object obj) 0 size

/-- The function `gc_update_alloc_table`. -/
def gc_update_alloc_table (cfg : gc_config) (m : Mem) (mutator : Nat) (obj : gc_ref)
    (size : Nat) : Except Fault Mem :=
  let alignment := cfg.gc_allocator_alloc_table_alignment
  if alignment = 0 then .ok m
  else
    let addr := gc_ref_value obj
    let base := addr &&& wnot (wsub alignment 1)
    let granule_size := cfg.gc_allocator_small_granule_size
    if granule_size = 0 then .error Fault.division_by_zero
    else
      let granule := (addr &&& wsub alignment 1) / granule_size
      let alloc := wadd base granule
      let begin_pattern := cfg.gc_allocator_alloc_table_begin_pattern
      let end_pattern := cfg.gc_allocator_alloc_table_end_pattern
      if end_pattern ≠ 0 then
        let granules := size / granule_size
        if granules = 1 then
          .ok (store8 m alloc (begin_pattern ||| end_pattern))
        else
          let m1 := store8 m alloc begin_pattern
          let m2 := if granules > 2 then memset m1 (wadd alloc 1) 0 (wsub granules 2) else m1
          .ok (store8 m2 (wadd alloc (wsub granules 1)) end_pattern)
      else
        .ok (store8 m alloc begin_pattern)

/-- The rounding of `gc_allocate_bump_pointer`:
`(size + granule_size - 1) & ~(granule_size - 1)`. -/
def bump_size (granule_size size : Nat) : Nat :=
  wsub (wadd size granule_size) 1 &&& wnot (wsub granule_size 1)

/-- The function `gc_allocate_bump_pointer`. -/
def gc_allocate_bump_pointer (cfg : gc_config) (be : gc_backend) (m : Mem)
    (mutator size : Nat) : Except Fault (Mem × Nat) :=
  if cfg.gc_debug = true ∧ ¬ size ≤ cfg.gc_allocator_large_threshold then
    .error Fault.gc_crash
  else
    let granule_size := cfg.gc_allocator_small_granule_size
    let hp_offset := cfg.gc_allocator_allocation_pointer_offset
    let limit_offset := cfg.gc_allocator_allocation_limit_offset
    let base_addr := mutator
    let hp_loc := wadd base_addr hp_offset
    let limit_loc := wadd base_addr limit_offset
    let size1 := bump_size granule_size size
    let hp := load_word m hp_loc
    let limit := load_word m limit_loc
    let new_hp := wadd hp size1
    if new_hp > limit then be.gc_allocate_small m mutator size1
    else
      let m1 := store_word m hp_loc new_hp
      let m2 := gc_clear_fresh_allocation cfg m1 ⟨hp⟩ size1
      match gc_update_alloc_table cfg m2 mutator ⟨hp⟩ size1 with
      | .error e => .error e
      | .ok m3 => .ok (m3, hp)

/-- The function `gc_allocate_freelist`. -/
def gc_allocate_freelist (cfg : gc_config) (be : gc_backend) (m : Mem)
    (mutator size : Nat) : Except Fault (Mem × Nat) :=
  if cfg.gc_debug = true ∧ ¬ size ≤ cfg.gc_allocator_large_threshold then
    .error Fault.gc_crash
  else
    let freelist_offset := cfg.gc_allocator_freelist_offset size
    let base_addr := mutator
    let freelist_loc := wadd base_addr freelist_offset
    let head := load_word m freelist_loc
    if head = 0 then be.gc_allocate_small m mutator size
    else
      let m1 := store_word m freelist_loc (load_word m head)
      let m2 := gc_clear_fresh_allocation cfg m1 (gc_ref_from_heap_object head) size
      match gc_update_alloc_table cfg m2 mutator (gc_ref_from_heap_object head) size with
      | .error e => .error e
      | .ok m3 => .ok (m3, head)

/-- The function `gc_allocate`. -/
def gc_allocate (cfg : gc_config) (be : gc_backend) (m : Mem)
    (mutator size : Nat) : Except Fault (Mem × Nat) :=
  if cfg.gc_debug = true ∧ size = 0 then .error Fault.gc_crash
  else if size > cfg.gc_allocator_large_threshold then be.gc_allocate_large m mutator size
  else
    match cfg.gc_allocator_kind with
    | .GC_ALLOCATOR_INLINE_BUMP_POINTER => gc_allocate_bump_pointer cfg be m mutator size
    | .GC_ALLOCATOR_INLINE_FREELIST => gc_allocate_freelist cfg be m mutator size
    | .GC_ALLOCATOR_INLINE_NONE => be.gc_allocate_small m mutator size
    | .other _ => .error Fault.gc_crash

/-- The function `gc_small_write_barrier`. -/
def gc_small_write_barrier (cfg : gc_config) (m : Mem) (obj : gc_ref) (edge : gc_edge)
    (new_val : gc_ref) : Except Fault Mem :=
  match cfg.gc_small_write_barrier_kind with
  | .GC_WRITE_BARRIER_NONE => .ok m
  | .GC_WRITE_BARRIER_CARD =>
    let card_table_alignment := cfg.gc_small_write_barrier_card_table_alignment
    let card_size := cfg.gc_small_write_barrier_card_size
    let addr := gc_ref_value obj
    let base := addr &&& wnot (wsub card_table_alignment 1)
    if card_size = 0 then .error Fault.division_by_zero
    else
      let card := (addr &&& wsub card_table_alignment 1) / card_size
      .ok (store8 m (wadd base card) 1)
  | .other _ => .error Fault.gc_crash

/-! ## Locations, footprints, and concrete configurations and states -/

/-- Address `x` is one of the `n` bytes that start at address `a`. -/
def in_range (a n x : Nat) : Prop := ∃ i, i < n ∧ x = (a + i) % WORD

/-- Address of the mutator's allocation pointer. -/
def hp_loc (cfg : gc_config) (mutator : Nat) : Nat :=
  wadd mutator cfg.gc_allocator_allocation_pointer_offset

/-- Address of the mutator's allocation limit. -/
def limit_loc (cfg : gc_config) (mutator : Nat) : Nat :=
  wadd mutator cfg.gc_allocator_allocation_limit_offset

/-- Address of the freelist head slot that serves requests of `size` bytes. -/
def freelist_loc (cfg : gc_config) (mutator size : Nat) : Nat :=
  wadd mutator (cfg.gc_allocator_freelist_offset size)

/-- The alloc-table location that `gc_update_alloc_table` computes for an
address: `base + granule` in the source. -/
def alloc_table_loc (cfg : gc_config) (addr : Nat) : Nat :=
  wadd (addr &&& wnot (wsub cfg.gc_allocator_alloc_table_alignment 1))
    ((addr &&& wsub cfg.gc_allocator_alloc_table_alignment 1) /
      cfg.gc_allocator_small_granule_size)

/-- The addresses that `gc_update_alloc_table` stores to, for an object at
`addr` of `size` bytes. -/
def alloc_table_written (cfg : gc_config) (addr size x : Nat) : Prop :=
  cfg.gc_allocator_alloc_table_alignment ≠ 0 ∧
  (x = alloc_table_loc cfg addr ∨
    (cfg.gc_allocator_alloc_table_end_pattern ≠ 0 ∧
      size / cfg.gc_allocator_small_granule_size ≠ 1 ∧
      (x = wadd (alloc_table_loc cfg addr)
            (wsub (size / cfg.gc_allocator_small_granule_size) 1) ∨
        (size / cfg.gc_allocator_small_granule_size > 2 ∧
          in_range (wadd (alloc_table_loc cfg addr) 1)
            (wsub (size / cfg.gc_allocator_small_granule_size) 2) x))))

/-- The addresses that the steps after an inline allocation store to: the
zeroing of the object and the alloc-table update. -/
def fresh_written (cfg : gc_config) (addr size x : Nat) : Prop :=
  (cfg.gc_allocator_needs_clear = true ∧ in_range addr size x) ∨
    alloc_table_written cfg addr size x

instance (a n x : Nat) : Decidable (in_range a n x) := by
  unfold in_range; infer_instance

instance (cfg : gc_config) (addr size x : Nat) : Decidable (alloc_table_written cfg addr size x) := by
  unfold alloc_table_written; infer_instance

instance (cfg : gc_config) (addr size x : Nat) : Decidable (fresh_written cfg addr size x) := by
  unfold fresh_written; infer_instance

/-- A backend whose allocators return address `0` and leave memory alone. -/
def idle_backend : gc_backend where
  gc_allocate_small := fun m _ _ => .ok (m, 0)
  gc_allocate_large := fun m _ _ => .ok (m, 0)

/-- A bump-pointer configuration: granule 16, threshold 4096, alloc table
aligned on 4 MiB, zeroing of fresh objects, card barrier with 256-byte cards. -/
def bump_config : gc_config where
  gc_debug := true
  gc_allocator_kind := .GC_ALLOCATOR_INLINE_BUMP_POINTER
  gc_allocator_large_threshold := 4096
  gc_allocator_small_granule_size := 16
  gc_allocator_allocation_pointer_offset := 0
  gc_allocator_allocation_limit_offset := 8
  gc_allocator_freelist_offset := fun size => 16 + 8 * ((size + 15) / 16)
  gc_allocator_alloc_table_alignment := 4194304
  gc_allocator_alloc_table_begin_pattern := 1
  gc_allocator_alloc_table_end_pattern := 16
  gc_allocator_needs_clear := true
  gc_small_write_barrier_kind := .GC_WRITE_BARRIER_CARD
  gc_small_write_barrier_card_table_alignment := 4194304
  gc_small_write_barrier_card_size := 256

/-- A memory whose only nonzero bytes are the words `hp` and `limit` stored at
`mutator` and `mutator + 8`. -/
def bump_mem (mutator hp limit : Nat) : Mem :=
  store_word (store_word (fun _ => 0) mutator hp) (mutator + 8) limit

/-- The address a call returned, if it returned. -/
def result_addr : Except Fault (Mem × Nat) → Option Nat
  | .ok r => some r.2
  | .error _ => none

/-- The word at address `a` after a call, if it returned. -/
def result_word (a : Nat) : Except Fault (Mem × Nat) → Option Nat
  | .ok r => some (load_word r.1 a)
  | .error _ => none

/-- The configuration `bump_config` with a granule of 24 bytes, which is not a
power of two. -/
def granule24_config : gc_config :=
  { bump_config with gc_allocator_small_granule_size := 24 }

/-- The configuration `bump_config` with the freelist strategy. -/
def freelist_config : gc_config :=
  { bump_config with gc_allocator_kind := .GC_ALLOCATOR_INLINE_FREELIST }

/-- A memory whose only nonzero bytes are three words: `h` stored at `slot`,
`h2` stored at `h` and `n` stored at `h2`. -/
def freelist_mem (slot h h2 n : Nat) : Mem :=
  store_word (store_word (store_word (fun _ => 0) slot h) h h2) h2 n

/-- The byte at address `a` after a call that returns a memory, if it returned. -/
def mem_byte (a : Nat) : Except Fault Mem → Option Nat
  | .ok m => some (load8 m a)
  | .error _ => none

/-- The configuration `bump_config` with a zero end pattern. -/
def no_end_config : gc_config :=
  { bump_config with gc_allocator_alloc_table_end_pattern := 0 }

/-- The configuration `bump_config` with the write barrier switched off. -/
def no_barrier_config : gc_config :=
  { bump_config with gc_small_write_barrier_kind := .GC_WRITE_BARRIER_NONE }

/-- A backend whose small allocator returns address `1` and whose large
allocator returns address `2`, both leaving memory alone. -/
def marker_backend : gc_backend where
  gc_allocate_small := fun m _ _ => .ok (m, 1)
  gc_allocate_large := fun m _ _ => .ok (m, 2)

/-- The configuration `bump_config` without an alloc table. -/
def no_table_config : gc_config :=
  { bump_config with gc_allocator_alloc_table_alignment := 0 }

/-- The configuration `bump_config` with an allocator kind that is none of the
three named ones. -/
def other_kind_config : gc_config :=
  { bump_config with gc_allocator_kind := .other 7 }

/-- The card location that `gc_small_write_barrier` computes for an address:
`base + card` in the source. -/
def card_loc (cfg : gc_config) (addr : Nat) : Nat :=
  wadd (addr &&& wnot (wsub cfg.gc_small_write_barrier_card_table_alignment 1))
    ((addr &&& wsub cfg.gc_small_write_barrier_card_table_alignment 1) /
      cfg.gc_small_write_barrier_card_size)

/-- Addresses `a` and `b` lie in the same aligned block of the card table and,
inside it, in the same range of `card_size` bytes. -/
def same_card (cfg : gc_config) (a b : Nat) : Prop :=
  (a &&& wnot (wsub cfg.gc_small_write_barrier_card_table_alignment 1)) =
      (b &&& wnot (wsub cfg.gc_small_write_barrier_card_table_alignment 1)) ∧
    (a &&& wsub cfg.gc_small_write_barrier_card_table_alignment 1) /
        cfg.gc_small_write_barrier_card_size =
      (b &&& wsub cfg.gc_small_write_barrier_card_table_alignment 1) /
        cfg.gc_small_write_barrier_card_size

instance (cfg : gc_config) (a b : Nat) : Decidable (same_card cfg a b) := by
  unfold same_card; infer_instance

/-- A sequence of calls of `gc_small_write_barrier`, each given as its object,
edge and new value, and each run on the memory that the one before returned. -/
def gc_small_write_barrier_seq (cfg : gc_config) (m : Mem) :
    List (gc_ref × gc_edge × gc_ref) → Except Fault Mem
  | [] => .ok m
  | c :: rest =>
    match gc_small_write_barrier cfg m c.1 c.2.1 c.2.2 with
    | .error e => .error e
    | .ok m1 => gc_small_write_barrier_seq cfg m1 rest

/-- The alloc-table bytes of an object of `N` granules whose first granule has
the table location `loc`: one byte `begin | end` when `N = 1`; otherwise the
begin pattern at `loc`, the end pattern at `loc + N - 1` and zero at every place
strictly between. -/
def alloc_table_encoded (cfg : gc_config) (m : Mem) (loc N : Nat) : Prop :=
  (N = 1 → load8 m loc =
    (cfg.gc_allocator_alloc_table_begin_pattern |||
      cfg.gc_allocator_alloc_table_end_pattern) % 256) ∧
  (2 ≤ N →
    load8 m loc = cfg.gc_allocator_alloc_table_begin_pattern % 256 ∧
    load8 m (loc + (N - 1)) = cfg.gc_allocator_alloc_table_end_pattern % 256 ∧
    ∀ i, i < N - 1 → 0 < i → load8 m (loc + i) = 0)

instance (cfg : gc_config) (m : Mem) (loc N : Nat) :
    Decidable (alloc_table_encoded cfg m loc N) := by
  unfold alloc_table_encoded; infer_instance

/-- The byte at address `a` after a call, if it returned. -/
def result_byte (a : Nat) : Except Fault (Mem × Nat) → Option Nat
  | .ok r => some (load8 r.1 a)
  | .error _ => none

/-! ## Machine arithmetic: basic facts -/

theorem WORD_eq : WORD = 18446744073709551616 := by norm_num [WORD]

theorem WORD_pos : 0 < WORD := by rw [WORD_eq]; omega

theorem wadd_of_lt {a b : Nat} (h : a + b < WORD) : wadd a b = a + b := by
  unfold wadd; exact Nat.mod_eq_of_lt h

theorem wsub_of_le {a b : Nat} (ha : a < WORD) (hb : b ≤ a) : wsub a b = a - b := by
  unfold wsub; rw [WORD_eq] at *; omega

theorem wadd_lt (a b : Nat) : wadd a b < WORD := Nat.mod_lt _ WORD_pos

theorem wsub_lt (a b : Nat) : wsub a b < WORD := Nat.mod_lt _ WORD_pos

/-- Masking with the complement of `2 ^ k - 1` clears the `k` low bits. -/
theorem and_wnot_pow2 {x k : Nat} (hx : x < WORD) (hk : k ≤ 64) :
    x &&& wnot (2 ^ k - 1) = x / 2 ^ k * 2 ^ k := by
  have hlt : 2 ^ k - 1 < 2 ^ 64 := by
    have : 2 ^ k ≤ 2 ^ 64 := Nat.pow_le_pow_right (by omega) hk
    have : 0 < 2 ^ k := Nat.pos_pow_of_pos _ (by omega)
    omega
  have hw : wnot (2 ^ k - 1) = 2 ^ 64 - ((2 ^ k - 1) + 1) := by
    unfold wnot WORD; rw [Nat.mod_eq_of_lt hlt]; omega
  rw [hw]
  apply Nat.eq_of_testBit_eq
  intro i
  rw [Nat.testBit_and, Nat.testBit_two_pow_sub_succ hlt, Nat.testBit_two_pow_sub_one,
    Nat.mul_comm, Nat.testBit_mul_pow_two, ← Nat.shiftRight_eq_div_pow, Nat.testBit_shiftRight]
  by_cases hik : i < k
  · have : ¬ i ≥ k := by omega
    simp [hik, this]
  · have hge : i ≥ k := by omega
    have hadd : k + (i - k) = i := by omega
    by_cases hi : i < 64
    · simp [hik, hge, hi, hadd]
    · have hbig : x < 2 ^ i :=
        lt_of_lt_of_le hx (by unfold WORD; exact Nat.pow_le_pow_right (by omega) (by omega))
      simp [hik, hge, hi, hadd, Nat.testBit_lt_two_pow hbig]

/-- The least multiple of `g` that is at least `s`. -/
theorem round_up_least {g s : Nat} (hg : 0 < g) :
    IsLeast {n | g ∣ n ∧ s ≤ n} ((s + g - 1) / g * g) := by
  constructor
  · refine ⟨Dvd.intro_left _ rfl, ?_⟩
    have h1 := Nat.div_add_mod (s + g - 1) g
    have h2 := Nat.mod_lt (s + g - 1) hg
    rw [Nat.mul_comm] at h1
    omega
  · rintro n ⟨⟨c, rfl⟩, hs⟩
    rw [Nat.mul_comm g c]
    apply Nat.mul_le_mul_right
    have hlt : (s + g - 1) / g < c + 1 := by
      rw [Nat.div_lt_iff_lt_mul hg, Nat.succ_mul, Nat.mul_comm c g]
      have hs0 : s ≤ g * c := hs
      omega
    omega

/-- On a power-of-two granule and without overflow of `size + granule - 1`,
the rounding of the bump allocator is the usual rounding up. -/
theorem bump_size_pow2 {k s : Nat} (hk : k < 64) (hs : s + 2 ^ k - 1 < WORD) :
    bump_size (2 ^ k) s = (s + 2 ^ k - 1) / 2 ^ k * 2 ^ k := by
  have hg0 : 0 < 2 ^ k := Nat.pos_pow_of_pos _ (by omega)
  have hgW : 2 ^ k < WORD := by unfold WORD; exact Nat.pow_lt_pow_right (by omega) hk
  have h1 : wsub (2 ^ k) 1 = 2 ^ k - 1 := wsub_of_le hgW hg0
  have h2 : wsub (wadd s (2 ^ k)) 1 = s + 2 ^ k - 1 := by
    unfold wadd wsub; rw [WORD_eq] at *; omega
  unfold bump_size
  rw [h1, h2]
  exact and_wnot_pow2 hs (by omega)

/-! ## Memory: reads after writes -/

theorem store8_same (m : Mem) (a v : Nat) : store8 m a v (a % WORD) = v % 256 := by
  simp [store8]

theorem store8_other (m : Mem) (a v : Nat) {x : Nat} (h : x ≠ a % WORD) :
    store8 m a v x = m x := by
  simp [store8, h]

theorem in_range_succ {a n x : Nat} :
    in_range a (n + 1) x ↔ x = a % WORD ∨ in_range (a + 1) n x := by
  constructor
  · rintro ⟨i, hi, rfl⟩
    cases i with
    | zero => left; rfl
    | succ j => right; exact ⟨j, by omega, by congr 1; omega⟩
  · rintro (rfl | ⟨j, hj, rfl⟩)
    · exact ⟨0, by omega, rfl⟩
    · exact ⟨j + 1, by omega, by congr 1; omega⟩

theorem memset_out (m : Mem) (a v n : Nat) {x : Nat} (h : ¬ in_range a n x) :
    memset m a v n x = m x := by
  induction n generalizing m a with
  | zero => rfl
  | succ n ih =>
    rw [in_range_succ, not_or] at h
    rw [memset, ih _ _ h.2, store8_other _ _ _ h.1]

theorem memset_keep (m : Mem) (a v n : Nat) {x : Nat} (h : m x = v % 256) :
    memset m a v n x = v % 256 := by
  induction n generalizing m a with
  | zero => exact h
  | succ n ih =>
    rw [memset]
    apply ih
    unfold store8
    split <;> simp [h]

theorem memset_in (m : Mem) (a v n : Nat) {x : Nat} (h : in_range a n x) :
    memset m a v n x = v % 256 := by
  induction n generalizing m a with
  | zero => obtain ⟨i, hi, _⟩ := h; omega
  | succ n ih =>
    rw [memset]
    rcases in_range_succ.1 h with rfl | h2
    · exact memset_keep _ _ _ _ (store8_same m a v)
    · exact ih _ _ h2

theorem store_bytes_out (m : Mem) (a v n : Nat) {x : Nat} (h : ¬ in_range a n x) :
    store_bytes m a v n x = m x := by
  induction n generalizing m a v with
  | zero => rfl
  | succ n ih =>
    rw [in_range_succ, not_or] at h
    rw [store_bytes, ih _ _ _ h.2, store8_other _ _ _ h.1]

theorem load_bytes_congr (m1 m2 : Mem) (a n : Nat)
    (h : ∀ x, in_range a n x → m1 x = m2 x) : load_bytes m1 a n = load_bytes m2 a n := by
  induction n generalizing a with
  | zero => rfl
  | succ n ih =>
    rw [load_bytes, load_bytes, ih (a + 1) (fun x hx => h x (in_range_succ.2 (Or.inr hx)))]
    unfold load8
    rw [h _ (in_range_succ.2 (Or.inl rfl))]

theorem not_in_range_self {a n : Nat} (hn : n < WORD) : ¬ in_range (a + 1) n (a % WORD) := by
  rintro ⟨i, hi, h⟩
  rw [WORD_eq] at *
  omega

theorem load_store_bytes (m : Mem) (a v n : Nat) (hn : n ≤ WORD) :
    load_bytes (store_bytes m a v n) a n = v % 256 ^ n := by
  induction n generalizing m a v with
  | zero => simp [load_bytes, Nat.mod_one]
  | succ n ih =>
    rw [load_bytes, store_bytes, ih _ _ _ (by omega)]
    unfold load8
    rw [store_bytes_out _ _ _ _ (not_in_range_self (by omega)), store8_same, Nat.mod_mod,
      Nat.pow_succ, Nat.mul_comm (256 ^ n) 256, Nat.mod_mul]

theorem load_bytes_lt (m : Mem) (a n : Nat) : load_bytes m a n < 256 ^ n := by
  induction n generalizing a with
  | zero => simp [load_bytes]
  | succ n ih =>
    have h1 := ih (a + 1)
    have h2 : load8 m a < 256 := Nat.mod_lt _ (by omega)
    rw [load_bytes, Nat.pow_succ]
    omega

theorem load_word_lt (m : Mem) (a : Nat) : load_word m a < WORD := by
  have h := load_bytes_lt m a 8
  unfold load_word
  rw [WORD_eq]
  norm_num at h
  exact h

theorem load_word_store_word (m : Mem) (a : Nat) {v : Nat} (hv : v < WORD) :
    load_word (store_word m a v) a = v := by
  unfold load_word store_word
  rw [load_store_bytes _ _ _ _ (by rw [WORD_eq]; omega)]
  apply Nat.mod_eq_of_lt
  rw [WORD_eq] at hv
  norm_num
  exact hv

theorem load_word_congr (m1 m2 : Mem) (a : Nat)
    (h : ∀ x, in_range a 8 x → m1 x = m2 x) : load_word m1 a = load_word m2 a :=
  load_bytes_congr m1 m2 a 8 h

theorem store_word_out (m : Mem) (a v : Nat) {x : Nat} (h : ¬ in_range a 8 x) :
    store_word m a v x = m x :=
  store_bytes_out m a v 8 h

/-! ## What the post-allocation steps write -/

theorem wadd_mod (a b : Nat) : wadd a b % WORD = wadd a b :=
  Nat.mod_eq_of_lt (wadd_lt a b)

theorem store8_wadd_other (m : Mem) (v : Nat) {a b x : Nat} (h : ¬ x = wadd a b) :
    store8 m (wadd a b) v x = m x := by
  apply store8_other
  have := wadd_mod a b
  omega

theorem gc_clear_fresh_allocation_frame (cfg : gc_config) (m : Mem) (obj : gc_ref)
    (size : Nat) {x : Nat}
    (h : ¬ (cfg.gc_allocator_needs_clear = true ∧ in_range obj.value size x)) :
    gc_clear_fresh_allocation cfg m obj size x = m x := by
  unfold gc_clear_fresh_allocation
  cases hc : cfg.gc_allocator_needs_clear with
  | false => simp
  | true =>
    simp only [Bool.not_true, Bool.false_eq_true, if_false]
    exact memset_out _ _ _ _ (fun hr => h ⟨hc, hr⟩)

theorem gc_update_alloc_table_ok (cfg : gc_config) (m : Mem) (mutator : Nat) (obj : gc_ref)
    (size : Nat)
    (hg : cfg.gc_allocator_alloc_table_alignment ≠ 0 → cfg.gc_allocator_small_granule_size ≠ 0) :
    ∃ m1, gc_update_alloc_table cfg m mutator obj size = .ok m1 := by
  unfold gc_update_alloc_table
  by_cases ha : cfg.gc_allocator_alloc_table_alignment = 0
  · exact ⟨m, by simp only [ha, if_true]⟩
  · simp only [ha, hg ha, if_false]
    split_ifs <;> exact ⟨_, rfl⟩

theorem gc_update_alloc_table_frame {cfg : gc_config} {m m1 : Mem} {mutator : Nat}
    {obj : gc_ref} {size x : Nat}
    (h : gc_update_alloc_table cfg m mutator obj size = .ok m1)
    (hx : ¬ alloc_table_written cfg obj.value size x) : m1 x = m x := by
  unfold alloc_table_written alloc_table_loc at hx
  unfold gc_update_alloc_table gc_ref_value at h
  by_cases ha : cfg.gc_allocator_alloc_table_alignment = 0
  · simp only [ha, if_true, Except.ok.injEq] at h
    rw [← h]
  · simp only [ha, if_false, ne_eq, not_false_eq_true, true_and, not_or, not_and] at h hx
    obtain ⟨hx0, hx1⟩ := hx
    split_ifs at h with hg he h1 h2
    · simp only [Except.ok.injEq] at h
      rw [← h, store8_wadd_other _ _ hx0]
    · simp only [Except.ok.injEq] at h
      rw [← h, store8_wadd_other _ _ hx0]
    · simp only [Except.ok.injEq] at h
      obtain ⟨hx2, hx3⟩ := hx1 he h1
      rw [← h, store8_wadd_other _ _ hx2, memset_out _ _ _ _ (hx3 h2),
        store8_wadd_other _ _ hx0]
    · simp only [Except.ok.injEq] at h
      obtain ⟨hx2, hx3⟩ := hx1 he h1
      rw [← h, store8_wadd_other _ _ hx2, store8_wadd_other _ _ hx0]

/-- A multiple of `2 ^ k` below `WORD` leaves room for `2 ^ k` more. -/
theorem mul_pow2_add_le {k q : Nat} (hk : k < 64) (h : q * 2 ^ k < WORD) :
    q * 2 ^ k + 2 ^ k ≤ WORD := by
  have hW : WORD = 2 ^ (64 - k) * 2 ^ k := by
    unfold WORD; rw [← Nat.pow_add]; congr 1; omega
  have hpos : 0 < 2 ^ k := Nat.pos_pow_of_pos _ (by omega)
  rw [hW] at h ⊢
  have hq : q < 2 ^ (64 - k) := Nat.lt_of_mul_lt_mul_right h
  calc q * 2 ^ k + 2 ^ k = (q + 1) * 2 ^ k := by rw [Nat.succ_mul]
    _ ≤ 2 ^ (64 - k) * 2 ^ k := Nat.mul_le_mul_right _ hq

/-- The rounded size is the least multiple of the granule that holds the
request, whenever that multiple is a machine word. -/
theorem bump_size_eq_least {k size r : Nat} (hk : k < 64)
    (hr : IsLeast {n | 2 ^ k ∣ n ∧ size ≤ n} r) (hrW : r < WORD) :
    bump_size (2 ^ k) size = r := by
  have hpos : 0 < 2 ^ k := Nat.pos_pow_of_pos _ (by omega)
  have hr2 : r = (size + 2 ^ k - 1) / 2 ^ k * 2 ^ k := hr.unique (round_up_least hpos)
  have hle : size ≤ r := hr.1.2
  have hroom : (size + 2 ^ k - 1) / 2 ^ k * 2 ^ k + 2 ^ k ≤ WORD :=
    mul_pow2_add_le hk (hr2 ▸ hrW)
  rw [bump_size_pow2 hk (by omega), ← hr2]

/-- The inline path of `gc_allocate_bump_pointer`, in terms of the rounded
size the code computes. -/
theorem gc_allocate_bump_pointer_fast (cfg : gc_config) (be : gc_backend) (m : Mem)
    (mutator size : Nat)
    (hassert : ¬ (cfg.gc_debug = true ∧ ¬ size ≤ cfg.gc_allocator_large_threshold))
    (hg : cfg.gc_allocator_alloc_table_alignment ≠ 0 → cfg.gc_allocator_small_granule_size ≠ 0)
    (hfit : ¬ wadd (load_word m (hp_loc cfg mutator))
        (bump_size cfg.gc_allocator_small_granule_size size) >
      load_word m (limit_loc cfg mutator)) :
    ∃ m3, gc_update_alloc_table cfg
        (gc_clear_fresh_allocation cfg
          (store_word m (hp_loc cfg mutator)
            (wadd (load_word m (hp_loc cfg mutator))
              (bump_size cfg.gc_allocator_small_granule_size size)))
          ⟨load_word m (hp_loc cfg mutator)⟩
          (bump_size cfg.gc_allocator_small_granule_size size))
        mutator ⟨load_word m (hp_loc cfg mutator)⟩
        (bump_size cfg.gc_allocator_small_granule_size size) = .ok m3 ∧
      gc_allocate_bump_pointer cfg be m mutator size =
        .ok (m3, load_word m (hp_loc cfg mutator)) := by
  obtain ⟨m3, h3⟩ := gc_update_alloc_table_ok cfg
    (gc_clear_fresh_allocation cfg
      (store_word m (hp_loc cfg mutator)
        (wadd (load_word m (hp_loc cfg mutator))
          (bump_size cfg.gc_allocator_small_granule_size size)))
      ⟨load_word m (hp_loc cfg mutator)⟩
      (bump_size cfg.gc_allocator_small_granule_size size))
    mutator ⟨load_word m (hp_loc cfg mutator)⟩
    (bump_size cfg.gc_allocator_small_granule_size size) hg
  refine ⟨m3, h3, ?_⟩
  unfold gc_allocate_bump_pointer
  simp only [hp_loc, limit_loc] at hfit h3 ⊢
  simp only [hassert, if_false, hfit, h3]

/-- What the inline path of `gc_allocate_bump_pointer` leaves in memory, away
from the bytes that the zeroing and the alloc-table update store to. -/
theorem gc_allocate_bump_pointer_fast_frame (cfg : gc_config) (be : gc_backend) (m : Mem)
    (mutator size : Nat)
    (hassert : ¬ (cfg.gc_debug = true ∧ ¬ size ≤ cfg.gc_allocator_large_threshold))
    (hg : cfg.gc_allocator_alloc_table_alignment ≠ 0 → cfg.gc_allocator_small_granule_size ≠ 0)
    (hfit : ¬ wadd (load_word m (hp_loc cfg mutator))
        (bump_size cfg.gc_allocator_small_granule_size size) >
      load_word m (limit_loc cfg mutator)) :
    ∃ m3, gc_allocate_bump_pointer cfg be m mutator size =
        .ok (m3, load_word m (hp_loc cfg mutator)) ∧
      ∀ x, ¬ fresh_written cfg (load_word m (hp_loc cfg mutator))
          (bump_size cfg.gc_allocator_small_granule_size size) x →
        m3 x = store_word m (hp_loc cfg mutator)
          (wadd (load_word m (hp_loc cfg mutator))
            (bump_size cfg.gc_allocator_small_granule_size size)) x := by
  obtain ⟨m3, h3, hres⟩ := gc_allocate_bump_pointer_fast cfg be m mutator size hassert hg hfit
  refine ⟨m3, hres, fun x hx => ?_⟩
  unfold fresh_written at hx
  rw [not_or] at hx
  rw [gc_update_alloc_table_frame h3 hx.2]
  exact gc_clear_fresh_allocation_frame cfg _ ⟨_⟩ _ hx.1

/-! ## The bump-pointer allocator -/

/-- Claim C1, amended: when the granule size is a power of two, the size is at
most the large-object threshold, `hp + r ≤ limit` for `r` the least multiple of
the granule that is at least the size, and the zeroing and the alloc-table
update store to no byte of the mutator's allocation pointer, then
`gc_allocate_bump_pointer` returns the value `hp` held before the call and the
stored allocation pointer afterwards is that address plus `r`. -/
theorem gc_allocate_bump_pointer_inline (cfg : gc_config) (be : gc_backend) (m : Mem)
    (mutator size k r : Nat)
    (hg : cfg.gc_allocator_small_granule_size = 2 ^ k) (hk : k < 64)
    (hsize : size ≤ cfg.gc_allocator_large_threshold)
    (hr : IsLeast {n | 2 ^ k ∣ n ∧ size ≤ n} r)
    (hfit : load_word m (hp_loc cfg mutator) + r ≤ load_word m (limit_loc cfg mutator))
    (hsep : ∀ x, in_range (hp_loc cfg mutator) 8 x →
      ¬ fresh_written cfg (load_word m (hp_loc cfg mutator)) r x) :
    ∃ m1, gc_allocate_bump_pointer cfg be m mutator size =
        .ok (m1, load_word m (hp_loc cfg mutator)) ∧
      load_word m1 (hp_loc cfg mutator) = load_word m (hp_loc cfg mutator) + r := by
  have hlim := load_word_lt m (limit_loc cfg mutator)
  have hb : bump_size cfg.gc_allocator_small_granule_size size = r := by
    rw [hg]; exact bump_size_eq_least hk hr (by omega)
  have hnew : wadd (load_word m (hp_loc cfg mutator)) r = load_word m (hp_loc cfg mutator) + r :=
    wadd_of_lt (by omega)
  have hpos : 0 < 2 ^ k := Nat.pos_pow_of_pos _ (by omega)
  obtain ⟨m1, hres, hframe⟩ := gc_allocate_bump_pointer_fast_frame cfg be m mutator size
    (fun h => h.2 hsize) (fun _ => by rw [hg]; omega) (by rw [hb, hnew]; omega)
  refine ⟨m1, hres, ?_⟩
  rw [hb, hnew] at hframe
  rw [load_word_congr m1 _ _ (fun x hx => hframe x (hsep x hx)),
    load_word_store_word _ _ (by omega)]

/-- Witness of `gc_allocate_bump_pointer_inline`: granule 16, `hp = 0x410000`,
`limit = 0x420000`, a request of 20 bytes advances `hp` by 32. -/
theorem gc_allocate_bump_pointer_inline_witness :
    ∃ m1, gc_allocate_bump_pointer bump_config idle_backend
        (bump_mem 4096 4259840 4325376) 4096 20 =
        .ok (m1, load_word (bump_mem 4096 4259840 4325376) (hp_loc bump_config 4096)) ∧
      load_word m1 (hp_loc bump_config 4096) =
        load_word (bump_mem 4096 4259840 4325376) (hp_loc bump_config 4096) + 32 :=
  gc_allocate_bump_pointer_inline bump_config idle_backend (bump_mem 4096 4259840 4325376)
    4096 20 4 32 rfl (by decide) (by decide) (round_up_least (g := 16) (s := 20) (by decide))
    (by decide)
    (by
      have hhp : load_word (bump_mem 4096 4259840 4325376) (hp_loc bump_config 4096) = 4259840 := by
        decide
      have hloc : hp_loc bump_config 4096 = 4096 := by decide
      have htab : alloc_table_loc bump_config 4259840 = 4198400 := by decide
      rw [hhp, hloc]
      rintro x ⟨i, hi, rfl⟩
      unfold fresh_written alloc_table_written
      rw [htab]
      have h1 : wadd 4198400 (wsub (32 / bump_config.gc_allocator_small_granule_size) 1) = 4198401 := by
        decide
      have h2 : ¬ 32 / bump_config.gc_allocator_small_granule_size > 2 := by decide
      rw [h1]
      rintro (⟨_, j, hj, hx⟩ | ⟨_, hx | ⟨_, _, hx | ⟨hx, _⟩⟩⟩)
      · rw [WORD_eq] at hx; omega
      · rw [WORD_eq] at hx; omega
      · rw [WORD_eq] at hx; omega
      · exact h2 hx)

/-- Claim C1 fails for a granule that is not a power of two: with granule 24
and a request of 20 bytes the least multiple is 24 and `hp + 24 ≤ limit`, the
call returns the old `hp`, but the stored pointer advances by 40. -/
theorem gc_allocate_bump_pointer_granule24 :
    IsLeast {n | 24 ∣ n ∧ 20 ≤ n} 24 ∧
    20 ≤ granule24_config.gc_allocator_large_threshold ∧
    load_word (bump_mem 4096 4259840 4325376) (hp_loc granule24_config 4096) + 24 ≤
      load_word (bump_mem 4096 4259840 4325376) (limit_loc granule24_config 4096) ∧
    result_addr (gc_allocate_bump_pointer granule24_config idle_backend
      (bump_mem 4096 4259840 4325376) 4096 20) = some 4259840 ∧
    result_word 4096 (gc_allocate_bump_pointer granule24_config idle_backend
      (bump_mem 4096 4259840 4325376) 4096 20) = some (4259840 + 40) ∧
    result_word 4096 (gc_allocate_bump_pointer granule24_config idle_backend
      (bump_mem 4096 4259840 4325376) 4096 20) ≠ some (4259840 + 24) :=
  ⟨round_up_least (g := 24) (s := 20) (by decide), by decide, by decide, by decide, by decide,
    by decide⟩

/-- With `bump_config`, the bytes stored to after the allocation of an object
of 32 bytes: the object, its table byte and the next table byte. -/
theorem bump_config_fresh_written {addr x : Nat}
    (h : fresh_written bump_config addr 32 x) :
    in_range addr 32 x ∨ x = alloc_table_loc bump_config addr ∨
      x = wadd (alloc_table_loc bump_config addr) 1 := by
  unfold fresh_written alloc_table_written at h
  have h1 : 32 / bump_config.gc_allocator_small_granule_size = 2 := by decide
  have h2 : wsub 2 1 = 1 := by decide
  rw [h1, h2] at h
  rcases h with ⟨_, h⟩ | ⟨_, h | ⟨_, _, h | ⟨h, _⟩⟩⟩
  · exact Or.inl h
  · exact Or.inr (Or.inl h)
  · exact Or.inr (Or.inr h)
  · omega

/-- In the memory `bump_mem 4096 0x410000 0x420000` and with `bump_config`, the
words `hp` and `limit` lie apart from each other and from the bytes stored to
after the allocation of 32 bytes at `0x410000`. -/
theorem bump_mem_separate :
    (∀ x, in_range (hp_loc bump_config 4096) 8 x →
      ¬ fresh_written bump_config
        (load_word (bump_mem 4096 4259840 4325376) (hp_loc bump_config 4096)) 32 x) ∧
    ∀ x, in_range (limit_loc bump_config 4096) 8 x →
      ¬ in_range (hp_loc bump_config 4096) 8 x ∧
        ¬ fresh_written bump_config
          (load_word (bump_mem 4096 4259840 4325376) (hp_loc bump_config 4096)) 32 x := by
  have hhp : load_word (bump_mem 4096 4259840 4325376) (hp_loc bump_config 4096) = 4259840 := by
    decide
  have hloc : hp_loc bump_config 4096 = 4096 := by decide
  have hlim : limit_loc bump_config 4096 = 4104 := by decide
  have htab : alloc_table_loc bump_config 4259840 = 4198400 := by decide
  have hw : wadd 4198400 1 = 4198401 := by decide
  rw [hhp, hloc, hlim]
  constructor
  · rintro x ⟨i, hi, rfl⟩ h
    rcases bump_config_fresh_written h with ⟨j, hj, hx⟩ | hx | hx
    · rw [WORD_eq] at hx; omega
    · rw [htab, WORD_eq] at hx; omega
    · rw [htab, hw, WORD_eq] at hx; omega
  · rintro x ⟨i, hi, rfl⟩
    refine ⟨?_, fun h => ?_⟩
    · rintro ⟨j, hj, hx⟩
      rw [WORD_eq] at hx; omega
    · rcases bump_config_fresh_written h with ⟨j, hj, hx⟩ | hx | hx
      · rw [WORD_eq] at hx; omega
      · rw [htab, WORD_eq] at hx; omega
      · rw [htab, hw, WORD_eq] at hx; omega

/-- Claim C2, amended: when the allocation pointer `hp` is a multiple of the
(power-of-two) granule size before the call, an inline bump allocation of a
size within the threshold returns that `hp`, a multiple of the granule size,
and the allocation pointer stored in the returned memory is `hp + r`, a
multiple of the granule size again (`r` the least multiple of the granule that
is at least the size).  The bytes that the zeroing and the alloc-table update
store to are taken to lie outside the mutator's allocation pointer. -/
theorem gc_allocate_bump_pointer_aligned (cfg : gc_config) (be : gc_backend) (m : Mem)
    (mutator size k r : Nat)
    (hg : cfg.gc_allocator_small_granule_size = 2 ^ k) (hk : k < 64)
    (hsize : size ≤ cfg.gc_allocator_large_threshold)
    (hr : IsLeast {n | 2 ^ k ∣ n ∧ size ≤ n} r)
    (hfit : load_word m (hp_loc cfg mutator) + r ≤ load_word m (limit_loc cfg mutator))
    (halign : cfg.gc_allocator_small_granule_size ∣ load_word m (hp_loc cfg mutator))
    (hsep : ∀ x, in_range (hp_loc cfg mutator) 8 x →
      ¬ fresh_written cfg (load_word m (hp_loc cfg mutator)) r x) :
    ∃ m1 a, gc_allocate_bump_pointer cfg be m mutator size = .ok (m1, a) ∧
      a = load_word m (hp_loc cfg mutator) ∧
      cfg.gc_allocator_small_granule_size ∣ a ∧
      load_word m1 (hp_loc cfg mutator) = a + r ∧
      cfg.gc_allocator_small_granule_size ∣ load_word m1 (hp_loc cfg mutator) := by
  have hlim := load_word_lt m (limit_loc cfg mutator)
  have hb : bump_size cfg.gc_allocator_small_granule_size size = r := by
    rw [hg]; exact bump_size_eq_least hk hr (by omega)
  have hnew : wadd (load_word m (hp_loc cfg mutator)) r = load_word m (hp_loc cfg mutator) + r :=
    wadd_of_lt (by omega)
  have hpos : 0 < 2 ^ k := Nat.pos_pow_of_pos _ (by omega)
  obtain ⟨m1, hres, hframe⟩ := gc_allocate_bump_pointer_fast_frame cfg be m mutator size
    (fun h => h.2 hsize) (fun _ => by rw [hg]; omega) (by rw [hb, hnew]; omega)
  rw [hb, hnew] at hframe
  have hhp : load_word m1 (hp_loc cfg mutator) = load_word m (hp_loc cfg mutator) + r := by
    rw [load_word_congr m1 _ _ (fun x hx => hframe x (hsep x hx)),
      load_word_store_word _ _ (by omega)]
  refine ⟨m1, _, hres, rfl, halign, hhp, ?_⟩
  rw [hhp]
  exact Nat.dvd_add halign (hg ▸ hr.1.1)

/-- Witness of `gc_allocate_bump_pointer_aligned`: granule 16, `hp = 0x410000`,
a request of 20 bytes; the stored pointer becomes `0x410020`. -/
theorem gc_allocate_bump_pointer_aligned_witness :
    ∃ m1 a, gc_allocate_bump_pointer bump_config idle_backend
        (bump_mem 4096 4259840 4325376) 4096 20 = .ok (m1, a) ∧
      a = load_word (bump_mem 4096 4259840 4325376) (hp_loc bump_config 4096) ∧
      bump_config.gc_allocator_small_granule_size ∣ a ∧
      load_word m1 (hp_loc bump_config 4096) = a + 32 ∧
      bump_config.gc_allocator_small_granule_size ∣ load_word m1 (hp_loc bump_config 4096) :=
  gc_allocate_bump_pointer_aligned bump_config idle_backend (bump_mem 4096 4259840 4325376)
    4096 20 4 32 rfl (by decide) (by decide) (round_up_least (g := 16) (s := 20) (by decide))
    (by decide) (by decide) bump_mem_separate.1

/-- Claim C2 fails when `hp` is not a multiple of the granule size: with
granule 16 and `hp = 0x410008` the inline path returns `0x410008`. -/
theorem gc_allocate_bump_pointer_misaligned :
    20 ≤ bump_config.gc_allocator_large_threshold ∧
    load_word (bump_mem 4096 4259848 4325376) (hp_loc bump_config 4096) + 32 ≤
      load_word (bump_mem 4096 4259848 4325376) (limit_loc bump_config 4096) ∧
    result_addr (gc_allocate_bump_pointer bump_config idle_backend
      (bump_mem 4096 4259848 4325376) 4096 20) = some 4259848 ∧
    result_word 4096 (gc_allocate_bump_pointer bump_config idle_backend
      (bump_mem 4096 4259848 4325376) 4096 20) = some (4259848 + 32) ∧
    ¬ bump_config.gc_allocator_small_granule_size ∣ 4259848 := by
  refine ⟨by decide, by decide, by decide, by decide, by decide⟩

/-- The slow path of `gc_allocate_bump_pointer`, in terms of the rounded size
the code computes. -/
theorem gc_allocate_bump_pointer_slow (cfg : gc_config) (be : gc_backend) (m : Mem)
    (mutator size : Nat)
    (hassert : cfg.gc_debug = true → size ≤ cfg.gc_allocator_large_threshold)
    (hover : wadd (load_word m (hp_loc cfg mutator))
        (bump_size cfg.gc_allocator_small_granule_size size) >
      load_word m (limit_loc cfg mutator)) :
    gc_allocate_bump_pointer cfg be m mutator size =
      be.gc_allocate_small m mutator (bump_size cfg.gc_allocator_small_granule_size size) := by
  unfold gc_allocate_bump_pointer
  simp only [hp_loc, limit_loc] at hover
  have h1 : ¬ (cfg.gc_debug = true ∧ ¬ size ≤ cfg.gc_allocator_large_threshold) :=
    fun h => h.2 (hassert h.1)
  simp only [h1, if_false, hover, if_true]

/-- Claim C3, amended: for every size (within the threshold when `GC_ASSERT`
checks) and every state in which the machine-word sum of `hp` and the rounded
size exceeds `limit`, `gc_allocate_bump_pointer` stores nothing itself: its
result and its effect are those of `gc_allocate_small` called on the memory of
before the call, with the rounded size.  For a power-of-two granule this is
so whenever `hp + r > limit` and `hp + r` is a machine word, for `r` the least
multiple of the granule that is at least the size. -/
theorem gc_allocate_bump_pointer_delegates (cfg : gc_config) (be : gc_backend) (m : Mem)
    (mutator size : Nat)
    (hassert : cfg.gc_debug = true → size ≤ cfg.gc_allocator_large_threshold) :
    (wadd (load_word m (hp_loc cfg mutator))
          (bump_size cfg.gc_allocator_small_granule_size size) >
        load_word m (limit_loc cfg mutator) →
      gc_allocate_bump_pointer cfg be m mutator size =
        be.gc_allocate_small m mutator
          (bump_size cfg.gc_allocator_small_granule_size size)) ∧
    (∀ k r, cfg.gc_allocator_small_granule_size = 2 ^ k → k < 64 →
      IsLeast {n | 2 ^ k ∣ n ∧ size ≤ n} r →
      load_word m (hp_loc cfg mutator) + r > load_word m (limit_loc cfg mutator) →
      load_word m (hp_loc cfg mutator) + r < WORD →
      gc_allocate_bump_pointer cfg be m mutator size = be.gc_allocate_small m mutator r) := by
  refine ⟨gc_allocate_bump_pointer_slow cfg be m mutator size hassert, ?_⟩
  intro k r hg hk hr hover hword
  have hb : bump_size cfg.gc_allocator_small_granule_size size = r := by
    rw [hg]; exact bump_size_eq_least hk hr (by omega)
  rw [← hb] at hover hword ⊢
  exact gc_allocate_bump_pointer_slow cfg be m mutator size hassert
    (by rw [wadd_of_lt hword]; exact hover)

/-- Witness of `gc_allocate_bump_pointer_delegates`: granule 16, `hp = 0x410000`,
`limit = 0x410010`, a request of 20 bytes, rounded to 32. -/
theorem gc_allocate_bump_pointer_delegates_witness :
    gc_allocate_bump_pointer bump_config idle_backend (bump_mem 4096 4259840 4259856) 4096 20 =
        idle_backend.gc_allocate_small (bump_mem 4096 4259840 4259856) 4096
          (bump_size bump_config.gc_allocator_small_granule_size 20) ∧
    gc_allocate_bump_pointer bump_config idle_backend (bump_mem 4096 4259840 4259856) 4096 20 =
        idle_backend.gc_allocate_small (bump_mem 4096 4259840 4259856) 4096 32 :=
  ⟨(gc_allocate_bump_pointer_delegates bump_config idle_backend (bump_mem 4096 4259840 4259856)
      4096 20 (by decide)).1 (by decide),
    (gc_allocate_bump_pointer_delegates bump_config idle_backend (bump_mem 4096 4259840 4259856)
      4096 20 (by decide)).2 4 32 rfl (by decide)
      (round_up_least (g := 16) (s := 20) (by decide)) (by decide) (by decide)⟩

/-- Claim C3 fails when `hp` plus the rounded size wraps around the machine
word: with `hp = limit = 2 ^ 64 - 16` and a request of 16 bytes the sum
`hp + 16` exceeds `limit`, yet the call takes the inline path, stores `0` to
the allocation pointer and returns `hp`, where the backend would have left
the pointer alone. -/
theorem gc_allocate_bump_pointer_wraps :
    load_word (bump_mem 4096 18446744073709551600 18446744073709551600)
        (hp_loc bump_config 4096) + 16 >
      load_word (bump_mem 4096 18446744073709551600 18446744073709551600)
        (limit_loc bump_config 4096) ∧
    IsLeast {n | 16 ∣ n ∧ 16 ≤ n} 16 ∧
    result_word 4096 (gc_allocate_bump_pointer bump_config idle_backend
      (bump_mem 4096 18446744073709551600 18446744073709551600) 4096 16) = some 0 ∧
    result_addr (gc_allocate_bump_pointer bump_config idle_backend
      (bump_mem 4096 18446744073709551600 18446744073709551600) 4096 16) =
      some 18446744073709551600 ∧
    result_word 4096 (idle_backend.gc_allocate_small
      (bump_mem 4096 18446744073709551600 18446744073709551600) 4096 16) =
      some 18446744073709551600 ∧
    gc_allocate_bump_pointer bump_config idle_backend
      (bump_mem 4096 18446744073709551600 18446744073709551600) 4096 16 ≠
      idle_backend.gc_allocate_small
        (bump_mem 4096 18446744073709551600 18446744073709551600) 4096 16 := by
  refine ⟨by decide, round_up_least (g := 16) (s := 16) (by decide), by decide, by decide,
    by decide, fun h => ?_⟩
  have h2 := congrArg (result_word 4096) h
  revert h2
  decide

/-! ## The freelist allocator -/

/-- The pop of `gc_allocate_freelist`: with a non-null head the call returns
the head, and memory is the one of before with the head slot overwritten,
away from the bytes that the zeroing and the alloc-table update store to. -/
theorem gc_allocate_freelist_fast (cfg : gc_config) (be : gc_backend) (m : Mem)
    (mutator size : Nat)
    (hassert : ¬ (cfg.gc_debug = true ∧ ¬ size ≤ cfg.gc_allocator_large_threshold))
    (hg : cfg.gc_allocator_alloc_table_alignment ≠ 0 → cfg.gc_allocator_small_granule_size ≠ 0)
    (hhead : load_word m (freelist_loc cfg mutator size) ≠ 0) :
    ∃ m3, gc_allocate_freelist cfg be m mutator size =
        .ok (m3, load_word m (freelist_loc cfg mutator size)) ∧
      ∀ x, ¬ fresh_written cfg (load_word m (freelist_loc cfg mutator size)) size x →
        m3 x = store_word m (freelist_loc cfg mutator size)
          (load_word m (load_word m (freelist_loc cfg mutator size))) x := by
  obtain ⟨m3, h3⟩ := gc_update_alloc_table_ok cfg
    (gc_clear_fresh_allocation cfg
      (store_word m (freelist_loc cfg mutator size)
        (load_word m (load_word m (freelist_loc cfg mutator size))))
      (gc_ref_from_heap_object (load_word m (freelist_loc cfg mutator size))) size)
    mutator (gc_ref_from_heap_object (load_word m (freelist_loc cfg mutator size))) size hg
  refine ⟨m3, ?_, fun x hx => ?_⟩
  · unfold gc_allocate_freelist
    simp only [freelist_loc] at hhead h3 ⊢
    simp only [hassert, if_false, hhead, h3]
  · unfold fresh_written at hx
    rw [not_or] at hx
    rw [gc_update_alloc_table_frame h3 hx.2]
    exact gc_clear_fresh_allocation_frame cfg _ ⟨_⟩ _ hx.1

/-- One pop of the freelist, with what it leaves in the head slot and in the
words that share no byte with it. -/
theorem gc_allocate_freelist_step (cfg : gc_config) (be : gc_backend) (m : Mem)
    (mutator size : Nat)
    (hsize : size ≤ cfg.gc_allocator_large_threshold)
    (hg : cfg.gc_allocator_alloc_table_alignment ≠ 0 → cfg.gc_allocator_small_granule_size ≠ 0)
    (hhead : load_word m (freelist_loc cfg mutator size) ≠ 0)
    (hsep : ∀ x, in_range (freelist_loc cfg mutator size) 8 x →
      ¬ fresh_written cfg (load_word m (freelist_loc cfg mutator size)) size x) :
    ∃ m1, gc_allocate_freelist cfg be m mutator size =
        .ok (m1, load_word m (freelist_loc cfg mutator size)) ∧
      load_word m1 (freelist_loc cfg mutator size) =
        load_word m (load_word m (freelist_loc cfg mutator size)) ∧
      ∀ a, (∀ x, in_range a 8 x → ¬ in_range (freelist_loc cfg mutator size) 8 x ∧
          ¬ fresh_written cfg (load_word m (freelist_loc cfg mutator size)) size x) →
        load_word m1 a = load_word m a := by
  obtain ⟨m1, hres, hframe⟩ := gc_allocate_freelist_fast cfg be m mutator size
    (fun h => h.2 hsize) hg hhead
  refine ⟨m1, hres, ?_, fun a ha => ?_⟩
  · rw [load_word_congr m1 _ _ (fun x hx => hframe x (hsep x hx)),
      load_word_store_word _ _ (load_word_lt _ _)]
  · apply load_word_congr
    intro x hx
    rw [hframe x (ha x hx).2, store_word_out _ _ _ (ha x hx).1]

/-- Claim C4: for a size within the threshold whose freelist head `H` is
non-null, `gc_allocate_freelist` returns `H`; afterwards the head slot of that
size class holds the word that was stored at `H`, and every word that shares
no byte with that head slot (another freelist head slot, `hp`, `limit`) holds
what it held.  The bytes that the zeroing of the object and its alloc-table
update store to are taken to lie outside the words in question. -/
theorem gc_allocate_freelist_pop (cfg : gc_config) (be : gc_backend) (m : Mem)
    (mutator size : Nat)
    (hsize : size ≤ cfg.gc_allocator_large_threshold)
    (hg : cfg.gc_allocator_alloc_table_alignment ≠ 0 → cfg.gc_allocator_small_granule_size ≠ 0)
    (hhead : load_word m (freelist_loc cfg mutator size) ≠ 0)
    (hsep : ∀ x, in_range (freelist_loc cfg mutator size) 8 x →
      ¬ fresh_written cfg (load_word m (freelist_loc cfg mutator size)) size x) :
    ∃ m1, gc_allocate_freelist cfg be m mutator size =
        .ok (m1, load_word m (freelist_loc cfg mutator size)) ∧
      load_word m1 (freelist_loc cfg mutator size) =
        load_word m (load_word m (freelist_loc cfg mutator size)) ∧
      ∀ a, (∀ x, in_range a 8 x → ¬ in_range (freelist_loc cfg mutator size) 8 x ∧
          ¬ fresh_written cfg (load_word m (freelist_loc cfg mutator size)) size x) →
        load_word m1 a = load_word m a :=
  gc_allocate_freelist_step cfg be m mutator size hsize hg hhead hsep

/-- Witness of `gc_allocate_freelist_pop`: the head slot at `0x1020` holds
`0x410000`, whose first word is `0x410040`; a request of 32 bytes. -/
theorem gc_allocate_freelist_pop_witness :
    ∃ m1, gc_allocate_freelist freelist_config idle_backend
        (freelist_mem 4128 4259840 4259904 4259968) 4096 32 =
        .ok (m1, load_word (freelist_mem 4128 4259840 4259904 4259968)
          (freelist_loc freelist_config 4096 32)) ∧
      load_word m1 (freelist_loc freelist_config 4096 32) =
        load_word (freelist_mem 4128 4259840 4259904 4259968)
          (load_word (freelist_mem 4128 4259840 4259904 4259968)
            (freelist_loc freelist_config 4096 32)) ∧
      ∀ a, (∀ x, in_range a 8 x → ¬ in_range (freelist_loc freelist_config 4096 32) 8 x ∧
          ¬ fresh_written freelist_config
            (load_word (freelist_mem 4128 4259840 4259904 4259968)
              (freelist_loc freelist_config 4096 32)) 32 x) →
        load_word m1 a = load_word (freelist_mem 4128 4259840 4259904 4259968) a :=
  gc_allocate_freelist_pop freelist_config idle_backend
    (freelist_mem 4128 4259840 4259904 4259968) 4096 32 (by decide) (by decide) (by decide)
    (by
      have hhd : load_word (freelist_mem 4128 4259840 4259904 4259968)
          (freelist_loc freelist_config 4096 32) = 4259840 := by decide
      have hloc : freelist_loc freelist_config 4096 32 = 4128 := by decide
      have htab : alloc_table_loc freelist_config 4259840 = 4198400 := by decide
      rw [hhd, hloc]
      rintro x ⟨i, hi, rfl⟩
      unfold fresh_written alloc_table_written
      rw [htab]
      have h1 : wadd 4198400
          (wsub (32 / freelist_config.gc_allocator_small_granule_size) 1) = 4198401 := by decide
      have h2 : ¬ 32 / freelist_config.gc_allocator_small_granule_size > 2 := by decide
      rw [h1]
      rintro (⟨_, j, hj, hx⟩ | ⟨_, hx | ⟨_, _, hx | ⟨hx, _⟩⟩⟩)
      · rw [WORD_eq] at hx; omega
      · rw [WORD_eq] at hx; omega
      · rw [WORD_eq] at hx; omega
      · exact h2 hx)

/-! ## The alloc-table encoder -/

theorem alloc_table_loc_lt (cfg : gc_config) (addr : Nat) : alloc_table_loc cfg addr < WORD :=
  wadd_lt _ _

theorem load8_store8_same (m : Mem) (a v : Nat) : load8 (store8 m a v) a = v % 256 := by
  unfold load8; rw [store8_same, Nat.mod_mod]

theorem load8_store8_other (m : Mem) (a b v : Nat) (h : a % WORD ≠ b % WORD) :
    load8 (store8 m b v) a = load8 m a := by
  unfold load8; rw [store8_other _ _ _ h]

/-- The memory `gc_update_alloc_table` returns when there is a table, the
granule size is nonzero and the end pattern is nonzero. -/
theorem gc_update_alloc_table_end (cfg : gc_config) (m : Mem) (mutator : Nat) (obj : gc_ref)
    (size : Nat) (ha : cfg.gc_allocator_alloc_table_alignment ≠ 0)
    (hg : cfg.gc_allocator_small_granule_size ≠ 0)
    (he : cfg.gc_allocator_alloc_table_end_pattern ≠ 0) :
    gc_update_alloc_table cfg m mutator obj size =
      .ok (if size / cfg.gc_allocator_small_granule_size = 1 then
          store8 m (alloc_table_loc cfg obj.value)
            (cfg.gc_allocator_alloc_table_begin_pattern |||
              cfg.gc_allocator_alloc_table_end_pattern)
        else
          store8
            (if size / cfg.gc_allocator_small_granule_size > 2 then
              memset (store8 m (alloc_table_loc cfg obj.value)
                  cfg.gc_allocator_alloc_table_begin_pattern)
                (wadd (alloc_table_loc cfg obj.value) 1) 0
                (wsub (size / cfg.gc_allocator_small_granule_size) 2)
            else store8 m (alloc_table_loc cfg obj.value)
              cfg.gc_allocator_alloc_table_begin_pattern)
            (wadd (alloc_table_loc cfg obj.value)
              (wsub (size / cfg.gc_allocator_small_granule_size) 1))
            cfg.gc_allocator_alloc_table_end_pattern) := by
  unfold gc_update_alloc_table alloc_table_loc gc_ref_value
  simp only [ha, hg, if_false, ne_eq, he, not_false_eq_true, if_true]
  split_ifs <;> rfl

/-- The memory `gc_update_alloc_table` returns when there is a table, the
granule size is nonzero and the end pattern is zero. -/
theorem gc_update_alloc_table_no_end (cfg : gc_config) (m : Mem) (mutator : Nat) (obj : gc_ref)
    (size : Nat) (ha : cfg.gc_allocator_alloc_table_alignment ≠ 0)
    (hg : cfg.gc_allocator_small_granule_size ≠ 0)
    (he : cfg.gc_allocator_alloc_table_end_pattern = 0) :
    gc_update_alloc_table cfg m mutator obj size =
      .ok (store8 m (alloc_table_loc cfg obj.value)
        cfg.gc_allocator_alloc_table_begin_pattern) := by
  unfold gc_update_alloc_table alloc_table_loc gc_ref_value
  simp only [ha, hg, if_false, ne_eq, he, not_true_eq_false]

theorem in_range_wadd_succ {loc n x : Nat} (h : in_range (wadd loc 1) n x) :
    ∃ i, 0 < i ∧ i < n + 1 ∧ x = (loc + i) % WORD := by
  obtain ⟨j, hj, rfl⟩ := h
  refine ⟨j + 1, by omega, by omega, ?_⟩
  unfold wadd
  rw [WORD_eq]
  omega

/-- The bytes `gc_update_alloc_table` stores for an object of `N ≥ 1` granules
when the end pattern is nonzero. -/
theorem gc_update_alloc_table_bytes (cfg : gc_config) (m : Mem) (mutator : Nat)
    (obj : gc_ref) (N : Nat)
    (ha : cfg.gc_allocator_alloc_table_alignment ≠ 0)
    (hg : cfg.gc_allocator_small_granule_size ≠ 0)
    (he : cfg.gc_allocator_alloc_table_end_pattern ≠ 0)
    (hN : 1 ≤ N) (hsize : N * cfg.gc_allocator_small_granule_size < WORD) :
    ∃ m1, gc_update_alloc_table cfg m mutator obj
        (N * cfg.gc_allocator_small_granule_size) = .ok m1 ∧
      (N = 1 →
        load8 m1 (alloc_table_loc cfg obj.value) =
          (cfg.gc_allocator_alloc_table_begin_pattern |||
            cfg.gc_allocator_alloc_table_end_pattern) % 256 ∧
        ∀ x, x ≠ alloc_table_loc cfg obj.value → m1 x = m x) ∧
      (2 ≤ N →
        load8 m1 (alloc_table_loc cfg obj.value) =
          cfg.gc_allocator_alloc_table_begin_pattern % 256 ∧
        load8 m1 (alloc_table_loc cfg obj.value + (N - 1)) =
          cfg.gc_allocator_alloc_table_end_pattern % 256 ∧
        ∀ i, 0 < i → i < N - 1 → load8 m1 (alloc_table_loc cfg obj.value + i) = 0) ∧
      ∀ x, ¬ in_range (alloc_table_loc cfg obj.value) N x → m1 x = m x := by
  have hgpos : 0 < cfg.gc_allocator_small_granule_size := Nat.pos_of_ne_zero hg
  have hNW : N < WORD := lt_of_le_of_lt (Nat.le_mul_of_pos_right N hgpos) hsize
  have hloc := alloc_table_loc_lt cfg obj.value
  rw [gc_update_alloc_table_end cfg m mutator obj _ ha hg he, Nat.mul_div_cancel N hgpos]
  generalize alloc_table_loc cfg obj.value = loc at hloc ⊢
  refine ⟨_, rfl, ?_, ?_, ?_⟩
  · intro h1
    subst h1
    simp only [if_true]
    refine ⟨load8_store8_same _ _ _, fun x hx => store8_other _ _ _ ?_⟩
    rw [Nat.mod_eq_of_lt hloc]; exact hx
  · intro h2
    have hne : ¬ N = 1 := by omega
    have hs1 : wsub N 1 = N - 1 := wsub_of_le hNW (by omega)
    have hs2 : wsub N 2 = N - 2 := wsub_of_le hNW h2
    simp only [hne, if_false, hs1, hs2]
    have hend : wadd loc (N - 1) % WORD = (loc + (N - 1)) % WORD := by
      unfold wadd; exact Nat.mod_mod _ _
    refine ⟨?_, ?_, ?_⟩
    · rw [load8_store8_other _ _ _ _ (by rw [hend, WORD_eq] at *; omega)]
      unfold load8
      split_ifs with h3
      · rw [memset_out, store8_same, Nat.mod_mod]
        intro hin
        obtain ⟨i, hi0, hi1, hi2⟩ := in_range_wadd_succ hin
        rw [WORD_eq] at *; omega
      · rw [store8_same, Nat.mod_mod]
    · unfold load8
      rw [← hend, store8_same, Nat.mod_mod]
    · intro i hi0 hi1
      rw [load8_store8_other _ _ _ _ (by rw [hend, WORD_eq] at *; omega)]
      have h3 : N > 2 := by omega
      simp only [h3, if_true]
      unfold load8
      rw [memset_in]
      refine ⟨i - 1, by omega, ?_⟩
      unfold wadd
      rw [WORD_eq]
      omega
  · intro x hx
    have hx0 : x ≠ loc := fun h => hx ⟨0, by omega, by rw [h, Nat.add_zero, Nat.mod_eq_of_lt hloc]⟩
    split_ifs with h1 h3
    · exact store8_other _ _ _ (by rw [Nat.mod_eq_of_lt hloc]; exact hx0)
    · have hs1 : wsub N 1 = N - 1 := wsub_of_le hNW (by omega)
      have hs2 : wsub N 2 = N - 2 := wsub_of_le hNW (by omega)
      rw [hs1, hs2, store8_wadd_other, memset_out, store8_other]
      · rw [Nat.mod_eq_of_lt hloc]; exact hx0
      · intro hin
        obtain ⟨i, hi0, hi1, hi2⟩ := in_range_wadd_succ hin
        exact hx ⟨i, by omega, hi2⟩
      · intro h
        exact hx ⟨N - 1, by omega, by rw [h]; rfl⟩
    · have hs1 : wsub N 1 = N - 1 := wsub_of_le hNW (by omega)
      rw [hs1, store8_wadd_other, store8_other]
      · rw [Nat.mod_eq_of_lt hloc]; exact hx0
      · intro h
        exact hx ⟨N - 1, by omega, by rw [h]; rfl⟩

/-- Claim C5, amended: with a nonzero alignment, a nonzero granule size and a
nonzero end pattern, `gc_update_alloc_table` called for an object of `N ≥ 1`
granules writes, from the table location `loc` of the object's address: one
byte `begin | end` when `N = 1`; `begin` at `loc`, `end` at `loc + N - 1` and
zero at every place strictly between when `N ≥ 2`; and no byte other than
those `N`. -/
theorem gc_update_alloc_table_encoding (cfg : gc_config) (m : Mem) (mutator : Nat)
    (obj : gc_ref) (N : Nat)
    (ha : cfg.gc_allocator_alloc_table_alignment ≠ 0)
    (hg : cfg.gc_allocator_small_granule_size ≠ 0)
    (he : cfg.gc_allocator_alloc_table_end_pattern ≠ 0)
    (hN : 1 ≤ N) (hsize : N * cfg.gc_allocator_small_granule_size < WORD) :
    ∃ m1, gc_update_alloc_table cfg m mutator obj
        (N * cfg.gc_allocator_small_granule_size) = .ok m1 ∧
      (N = 1 →
        load8 m1 (alloc_table_loc cfg obj.value) =
          (cfg.gc_allocator_alloc_table_begin_pattern |||
            cfg.gc_allocator_alloc_table_end_pattern) % 256 ∧
        ∀ x, x ≠ alloc_table_loc cfg obj.value → m1 x = m x) ∧
      (2 ≤ N →
        load8 m1 (alloc_table_loc cfg obj.value) =
          cfg.gc_allocator_alloc_table_begin_pattern % 256 ∧
        load8 m1 (alloc_table_loc cfg obj.value + (N - 1)) =
          cfg.gc_allocator_alloc_table_end_pattern % 256 ∧
        ∀ i, 0 < i → i < N - 1 → load8 m1 (alloc_table_loc cfg obj.value + i) = 0) ∧
      ∀ x, ¬ in_range (alloc_table_loc cfg obj.value) N x → m1 x = m x :=
  gc_update_alloc_table_bytes cfg m mutator obj N ha hg he hN hsize

/-- Witness of `gc_update_alloc_table_encoding`: an object of three granules at
`0x410000`, in an all-zero memory. -/
theorem gc_update_alloc_table_encoding_witness :
    ∃ m1, gc_update_alloc_table bump_config (fun _ => 0) 4096 ⟨4259840⟩
        (3 * bump_config.gc_allocator_small_granule_size) = .ok m1 ∧
      (3 = 1 →
        load8 m1 (alloc_table_loc bump_config (gc_ref.mk 4259840).value) =
          (bump_config.gc_allocator_alloc_table_begin_pattern |||
            bump_config.gc_allocator_alloc_table_end_pattern) % 256 ∧
        ∀ x, x ≠ alloc_table_loc bump_config (gc_ref.mk 4259840).value →
          m1 x = (fun _ => 0 : Mem) x) ∧
      (2 ≤ 3 →
        load8 m1 (alloc_table_loc bump_config (gc_ref.mk 4259840).value) =
          bump_config.gc_allocator_alloc_table_begin_pattern % 256 ∧
        load8 m1 (alloc_table_loc bump_config (gc_ref.mk 4259840).value + (3 - 1)) =
          bump_config.gc_allocator_alloc_table_end_pattern % 256 ∧
        ∀ i, 0 < i → i < 3 - 1 →
          load8 m1 (alloc_table_loc bump_config (gc_ref.mk 4259840).value + i) = 0) ∧
      ∀ x, ¬ in_range (alloc_table_loc bump_config (gc_ref.mk 4259840).value) 3 x →
        m1 x = (fun _ => 0 : Mem) x :=
  gc_update_alloc_table_encoding bump_config (fun _ => 0) 4096 ⟨4259840⟩ 3
    (by decide) (by decide) (by decide) (by decide) (by decide)

/-- Claim C5 fails for a zero end pattern: for an object of two granules at
`0x410000` only the byte at the table location `0x401000` is written (with the
begin pattern), and the next byte keeps the `7` it held, where the claim has
the end pattern `0`. -/
theorem gc_update_alloc_table_zero_end :
    no_end_config.gc_allocator_alloc_table_alignment ≠ 0 ∧
    no_end_config.gc_allocator_alloc_table_end_pattern = 0 ∧
    alloc_table_loc no_end_config 4259840 = 4198400 ∧
    mem_byte 4198400 (gc_update_alloc_table no_end_config (store8 (fun _ => 0) 4198401 7)
      4096 ⟨4259840⟩ (2 * no_end_config.gc_allocator_small_granule_size)) = some 1 ∧
    mem_byte (4198400 + (2 - 1)) (gc_update_alloc_table no_end_config
      (store8 (fun _ => 0) 4198401 7)
      4096 ⟨4259840⟩ (2 * no_end_config.gc_allocator_small_granule_size)) = some 7 ∧
    mem_byte (4198400 + (2 - 1)) (gc_update_alloc_table no_end_config
      (store8 (fun _ => 0) 4198401 7)
      4096 ⟨4259840⟩ (2 * no_end_config.gc_allocator_small_granule_size)) ≠
      some no_end_config.gc_allocator_alloc_table_end_pattern := by
  refine ⟨by decide, by decide, by decide, by decide, by decide, by decide⟩

/-! ## The write barrier -/

/-- Claim C6, amended: with the card strategy (and a nonzero card size) the
barrier stores the marker `1` to exactly one byte, the one at index
`(address & (card_alignment - 1)) / card_size` from the base
`address & ~(card_alignment - 1)`; every other byte keeps its value. -/
theorem gc_small_write_barrier_card (cfg : gc_config) (m : Mem) (obj : gc_ref)
    (edge : gc_edge) (new_val : gc_ref)
    (hkind : cfg.gc_small_write_barrier_kind = .GC_WRITE_BARRIER_CARD)
    (hcard : cfg.gc_small_write_barrier_card_size ≠ 0) :
    ∃ m1, gc_small_write_barrier cfg m obj edge new_val = .ok m1 ∧
      load8 m1 ((obj.value &&& wnot (wsub cfg.gc_small_write_barrier_card_table_alignment 1)) +
        (obj.value &&& wsub cfg.gc_small_write_barrier_card_table_alignment 1) /
          cfg.gc_small_write_barrier_card_size) = 1 ∧
      ∀ x, x ≠ ((obj.value &&& wnot (wsub cfg.gc_small_write_barrier_card_table_alignment 1)) +
          (obj.value &&& wsub cfg.gc_small_write_barrier_card_table_alignment 1) /
            cfg.gc_small_write_barrier_card_size) % WORD →
        m1 x = m x := by
  unfold gc_small_write_barrier gc_ref_value
  simp only [hkind, hcard, if_false]
  refine ⟨_, rfl, ?_, fun x hx => ?_⟩
  · unfold load8 wadd store8
    simp only [Nat.mod_mod, if_true]
  · apply store8_other
    unfold wadd
    rw [Nat.mod_mod]
    exact hx

/-- Witness of `gc_small_write_barrier_card`: an object at `0x410100`, cards of
256 bytes in blocks of 4 MiB. -/
theorem gc_small_write_barrier_card_witness :
    ∃ m1, gc_small_write_barrier bump_config (fun _ => 0) ⟨4260096⟩ ⟨4260104⟩ ⟨4259840⟩ =
        .ok m1 ∧
      load8 m1 (((gc_ref.mk 4260096).value &&&
          wnot (wsub bump_config.gc_small_write_barrier_card_table_alignment 1)) +
        ((gc_ref.mk 4260096).value &&&
          wsub bump_config.gc_small_write_barrier_card_table_alignment 1) /
          bump_config.gc_small_write_barrier_card_size) = 1 ∧
      ∀ x, x ≠ (((gc_ref.mk 4260096).value &&&
            wnot (wsub bump_config.gc_small_write_barrier_card_table_alignment 1)) +
          ((gc_ref.mk 4260096).value &&&
            wsub bump_config.gc_small_write_barrier_card_table_alignment 1) /
            bump_config.gc_small_write_barrier_card_size) % WORD →
        m1 x = (fun _ => 0 : Mem) x :=
  gc_small_write_barrier_card bump_config (fun _ => 0) ⟨4260096⟩ ⟨4260104⟩ ⟨4259840⟩ rfl
    (by decide)

/-- Claim C6 fails with the index it gives: for an object at `0x410100`, cards
of 256 bytes and an alignment of 4 MiB, the base is `0x400000` and the claimed
index `(address & ~(alignment - 1)) / card_size` is `0x4000`, but the byte at
`0x404000` stays zero: the marked byte is the one at index `0x101`. -/
theorem gc_small_write_barrier_claimed_index :
    (4260096 &&& wnot (wsub bump_config.gc_small_write_barrier_card_table_alignment 1)) =
      4194304 ∧
    (4260096 &&& wnot (wsub bump_config.gc_small_write_barrier_card_table_alignment 1)) /
      bump_config.gc_small_write_barrier_card_size = 16384 ∧
    mem_byte (4194304 + 16384)
      (gc_small_write_barrier bump_config (fun _ => 0) ⟨4260096⟩ ⟨4260104⟩ ⟨4259840⟩) =
      some 0 ∧
    mem_byte (4194304 + 257)
      (gc_small_write_barrier bump_config (fun _ => 0) ⟨4260096⟩ ⟨4260104⟩ ⟨4259840⟩) =
      some 1 := by
  refine ⟨by decide, by decide, by decide, by decide⟩

/-- Claim C7: with the card strategy (and a nonzero card size) the barrier is
idempotent: applied for an object address to the memory that a first
application for that address returned, it returns that same memory. -/
theorem gc_small_write_barrier_idempotent (cfg : gc_config) (m : Mem) (obj : gc_ref)
    (edge edge2 : gc_edge) (new_val new_val2 : gc_ref)
    (hkind : cfg.gc_small_write_barrier_kind = .GC_WRITE_BARRIER_CARD)
    (hcard : cfg.gc_small_write_barrier_card_size ≠ 0) :
    ∃ m1, gc_small_write_barrier cfg m obj edge new_val = .ok m1 ∧
      gc_small_write_barrier cfg m1 obj edge2 new_val2 = .ok m1 := by
  unfold gc_small_write_barrier
  simp only [hkind, hcard, if_false]
  refine ⟨_, rfl, ?_⟩
  congr 1
  funext x
  unfold store8
  split_ifs <;> rfl

/-- Witness of `gc_small_write_barrier_idempotent`: an object at `0x410100`,
written to through two of its fields. -/
theorem gc_small_write_barrier_idempotent_witness :
    ∃ m1, gc_small_write_barrier bump_config (fun _ => 0) ⟨4260096⟩ ⟨4260104⟩ ⟨4259840⟩ =
        .ok m1 ∧
      gc_small_write_barrier bump_config m1 ⟨4260096⟩ ⟨4260112⟩ ⟨4259904⟩ = .ok m1 :=
  gc_small_write_barrier_idempotent bump_config (fun _ => 0) ⟨4260096⟩ ⟨4260104⟩ ⟨4260112⟩
    ⟨4259840⟩ ⟨4259904⟩ rfl (by decide)

/-- Claim C8: with the strategy "none" the barrier returns the memory it was
given, whatever the object, the edge and the new value. -/
theorem gc_small_write_barrier_none (cfg : gc_config) (m : Mem) (obj : gc_ref)
    (edge : gc_edge) (new_val : gc_ref)
    (hkind : cfg.gc_small_write_barrier_kind = .GC_WRITE_BARRIER_NONE) :
    gc_small_write_barrier cfg m obj edge new_val = .ok m := by
  unfold gc_small_write_barrier
  simp only [hkind]

/-- Witness of `gc_small_write_barrier_none`. -/
theorem gc_small_write_barrier_none_witness :
    gc_small_write_barrier no_barrier_config (fun _ => 0) ⟨4260096⟩ ⟨4260104⟩ ⟨4259840⟩ =
      .ok (fun _ => 0) :=
  gc_small_write_barrier_none no_barrier_config (fun _ => 0) ⟨4260096⟩ ⟨4260104⟩ ⟨4259840⟩ rfl

/-! ## The allocation dispatcher -/

theorem gc_allocate_of_gt (cfg : gc_config) (be : gc_backend) (m : Mem)
    (mutator size : Nat) (hassert : ¬ (cfg.gc_debug = true ∧ size = 0))
    (h : size > cfg.gc_allocator_large_threshold) :
    gc_allocate cfg be m mutator size = be.gc_allocate_large m mutator size := by
  unfold gc_allocate
  simp only [hassert, if_false, h, if_true]

theorem gc_allocate_of_le (cfg : gc_config) (be : gc_backend) (m : Mem)
    (mutator size : Nat) (hassert : ¬ (cfg.gc_debug = true ∧ size = 0))
    (h : size ≤ cfg.gc_allocator_large_threshold) :
    gc_allocate cfg be m mutator size =
      match cfg.gc_allocator_kind with
      | .GC_ALLOCATOR_INLINE_BUMP_POINTER => gc_allocate_bump_pointer cfg be m mutator size
      | .GC_ALLOCATOR_INLINE_FREELIST => gc_allocate_freelist cfg be m mutator size
      | .GC_ALLOCATOR_INLINE_NONE => be.gc_allocate_small m mutator size
      | .other _ => .error Fault.gc_crash := by
  have h1 : ¬ size > cfg.gc_allocator_large_threshold := by omega
  unfold gc_allocate
  simp only [hassert, if_false, h1]

/-- Claim C9: for a nonzero size, `gc_allocate` is the large-object allocator
of the backend, called on the memory of before the call, when the size exceeds
the threshold (so at `threshold + 1`); when the size is at most the threshold
(so at the threshold itself) it is the path of the configured allocator kind
(bump pointer, freelist, or the small-object allocator of the backend; a crash
for any other kind), and its outcome does not depend on the large-object
allocator. -/
theorem gc_allocate_dispatch (cfg : gc_config) (be : gc_backend) (m : Mem)
    (mutator size : Nat) (hsize : size ≠ 0) :
    (size > cfg.gc_allocator_large_threshold →
      gc_allocate cfg be m mutator size = be.gc_allocate_large m mutator size) ∧
    (size ≤ cfg.gc_allocator_large_threshold →
      (cfg.gc_allocator_kind = .GC_ALLOCATOR_INLINE_BUMP_POINTER →
        gc_allocate cfg be m mutator size = gc_allocate_bump_pointer cfg be m mutator size) ∧
      (cfg.gc_allocator_kind = .GC_ALLOCATOR_INLINE_FREELIST →
        gc_allocate cfg be m mutator size = gc_allocate_freelist cfg be m mutator size) ∧
      (cfg.gc_allocator_kind = .GC_ALLOCATOR_INLINE_NONE →
        gc_allocate cfg be m mutator size = be.gc_allocate_small m mutator size) ∧
      (∀ tag, cfg.gc_allocator_kind = .other tag →
        gc_allocate cfg be m mutator size = .error Fault.gc_crash) ∧
      ∀ large, gc_allocate cfg ⟨be.gc_allocate_small, large⟩ m mutator size =
        gc_allocate cfg be m mutator size) := by
  have hassert : ¬ (cfg.gc_debug = true ∧ size = 0) := fun h => hsize h.2
  refine ⟨gc_allocate_of_gt cfg be m mutator size hassert, fun h => ?_⟩
  refine ⟨fun hk => ?_, fun hk => ?_, fun hk => ?_, fun tag hk => ?_, fun large => ?_⟩
  · rw [gc_allocate_of_le cfg be m mutator size hassert h, hk]
  · rw [gc_allocate_of_le cfg be m mutator size hassert h, hk]
  · rw [gc_allocate_of_le cfg be m mutator size hassert h, hk]
  · rw [gc_allocate_of_le cfg be m mutator size hassert h, hk]
  · rw [gc_allocate_of_le cfg _ m mutator size hassert h,
      gc_allocate_of_le cfg be m mutator size hassert h]
    cases cfg.gc_allocator_kind <;> rfl

/-- Witness of `gc_allocate_dispatch`: threshold 4096 and a request of 4097
bytes. -/
theorem gc_allocate_dispatch_witness :
    (4097 > bump_config.gc_allocator_large_threshold →
      gc_allocate bump_config marker_backend (bump_mem 4096 4259840 4325376) 4096 4097 =
        marker_backend.gc_allocate_large (bump_mem 4096 4259840 4325376) 4096 4097) ∧
    (4097 ≤ bump_config.gc_allocator_large_threshold →
      (bump_config.gc_allocator_kind = .GC_ALLOCATOR_INLINE_BUMP_POINTER →
        gc_allocate bump_config marker_backend (bump_mem 4096 4259840 4325376) 4096 4097 =
          gc_allocate_bump_pointer bump_config marker_backend
            (bump_mem 4096 4259840 4325376) 4096 4097) ∧
      (bump_config.gc_allocator_kind = .GC_ALLOCATOR_INLINE_FREELIST →
        gc_allocate bump_config marker_backend (bump_mem 4096 4259840 4325376) 4096 4097 =
          gc_allocate_freelist bump_config marker_backend
            (bump_mem 4096 4259840 4325376) 4096 4097) ∧
      (bump_config.gc_allocator_kind = .GC_ALLOCATOR_INLINE_NONE →
        gc_allocate bump_config marker_backend (bump_mem 4096 4259840 4325376) 4096 4097 =
          marker_backend.gc_allocate_small (bump_mem 4096 4259840 4325376) 4096 4097) ∧
      (∀ tag, bump_config.gc_allocator_kind = .other tag →
        gc_allocate bump_config marker_backend (bump_mem 4096 4259840 4325376) 4096 4097 =
          .error Fault.gc_crash) ∧
      ∀ large, gc_allocate bump_config ⟨marker_backend.gc_allocate_small, large⟩
          (bump_mem 4096 4259840 4325376) 4096 4097 =
        gc_allocate bump_config marker_backend (bump_mem 4096 4259840 4325376) 4096 4097) :=
  gc_allocate_dispatch bump_config marker_backend (bump_mem 4096 4259840 4325376) 4096 4097
    (by decide)

/-- Claim C10: with the freelist strategy, when the head of the size class is
`H ≠ 0`, the word at `H` is `H2 ≠ 0` and the word at `H2` is `N`, two
consecutive calls of `gc_allocate` for that size return `H` and then `H2`; the
head is `H2` after the first call and `N` after the second.  The bytes that
the zeroing and the alloc-table update of each call store to are taken to lie
outside the head slot, and those of the first call outside the word at `H2`,
which shares no byte with the head slot. -/
theorem gc_allocate_freelist_twice (cfg : gc_config) (be : gc_backend) (m : Mem)
    (mutator size H H2 N : Nat)
    (hkind : cfg.gc_allocator_kind = .GC_ALLOCATOR_INLINE_FREELIST)
    (hsize0 : size ≠ 0) (hsize : size ≤ cfg.gc_allocator_large_threshold)
    (hg : cfg.gc_allocator_alloc_table_alignment ≠ 0 → cfg.gc_allocator_small_granule_size ≠ 0)
    (hH : load_word m (freelist_loc cfg mutator size) = H) (hH0 : H ≠ 0)
    (hH2 : load_word m H = H2) (hH20 : H2 ≠ 0)
    (hN : load_word m H2 = N)
    (hsep1 : ∀ x, in_range (freelist_loc cfg mutator size) 8 x →
      ¬ fresh_written cfg H size x)
    (hsep2 : ∀ x, in_range (freelist_loc cfg mutator size) 8 x →
      ¬ fresh_written cfg H2 size x)
    (hsep3 : ∀ x, in_range H2 8 x →
      ¬ in_range (freelist_loc cfg mutator size) 8 x ∧ ¬ fresh_written cfg H size x) :
    ∃ m1 m2, gc_allocate cfg be m mutator size = .ok (m1, H) ∧
      load_word m1 (freelist_loc cfg mutator size) = H2 ∧
      gc_allocate cfg be m1 mutator size = .ok (m2, H2) ∧
      load_word m2 (freelist_loc cfg mutator size) = N := by
  have hassert : ¬ (cfg.gc_debug = true ∧ size = 0) := fun h => hsize0 h.2
  obtain ⟨m1, hres1, hhead1, hframe1⟩ := gc_allocate_freelist_step cfg be m mutator size hsize hg
    (by rw [hH]; exact hH0) (by rw [hH]; exact hsep1)
  rw [hH] at hres1 hhead1 hframe1
  rw [hH2] at hhead1
  have hN1 : load_word m1 H2 = N := by rw [hframe1 H2 hsep3, hN]
  obtain ⟨m2, hres2, hhead2, _⟩ := gc_allocate_freelist_step cfg be m1 mutator size hsize hg
    (by rw [hhead1]; exact hH20) (by rw [hhead1]; exact hsep2)
  rw [hhead1] at hres2 hhead2
  rw [hN1] at hhead2
  refine ⟨m1, m2, ?_, hhead1, ?_, hhead2⟩
  · rw [gc_allocate_of_le cfg be m mutator size hassert hsize, hkind]
    exact hres1
  · rw [gc_allocate_of_le cfg be m1 mutator size hassert hsize, hkind]
    exact hres2

/-- With `freelist_config`, the bytes stored to after the allocation of an
object of 32 bytes: the object, its table byte and the next table byte. -/
theorem freelist_config_fresh_written {addr x : Nat}
    (h : fresh_written freelist_config addr 32 x) :
    in_range addr 32 x ∨ x = alloc_table_loc freelist_config addr ∨
      x = wadd (alloc_table_loc freelist_config addr) 1 := by
  unfold fresh_written alloc_table_written at h
  have h1 : 32 / freelist_config.gc_allocator_small_granule_size = 2 := by decide
  have h2 : wsub 2 1 = 1 := by decide
  rw [h1, h2] at h
  rcases h with ⟨_, h⟩ | ⟨_, h | ⟨_, _, h | ⟨h, _⟩⟩⟩
  · exact Or.inl h
  · exact Or.inr (Or.inl h)
  · exact Or.inr (Or.inr h)
  · omega

/-- Witness of `gc_allocate_freelist_twice`: the head slot at `0x1020` holds
`0x410000`, whose first word is `0x410040`, whose first word is `0x410080`;
two requests of 32 bytes. -/
theorem gc_allocate_freelist_twice_witness :
    ∃ m1 m2, gc_allocate freelist_config idle_backend
        (freelist_mem 4128 4259840 4259904 4259968) 4096 32 = .ok (m1, 4259840) ∧
      load_word m1 (freelist_loc freelist_config 4096 32) = 4259904 ∧
      gc_allocate freelist_config idle_backend m1 4096 32 = .ok (m2, 4259904) ∧
      load_word m2 (freelist_loc freelist_config 4096 32) = 4259968 := by
  have hloc : freelist_loc freelist_config 4096 32 = 4128 := by decide
  have htab : alloc_table_loc freelist_config 4259840 = 4198400 := by decide
  have htab2 : alloc_table_loc freelist_config 4259904 = 4198404 := by decide
  have hw : wadd 4198400 1 = 4198401 := by decide
  have hw2 : wadd 4198404 1 = 4198405 := by decide
  refine gc_allocate_freelist_twice freelist_config idle_backend
    (freelist_mem 4128 4259840 4259904 4259968) 4096 32 4259840 4259904 4259968
    rfl (by decide) (by decide) (by decide) (by decide) (by decide) (by decide) (by decide)
    (by decide) ?_ ?_ ?_
  · rw [hloc]
    rintro x ⟨i, hi, rfl⟩ h
    rcases freelist_config_fresh_written h with ⟨j, hj, hx⟩ | hx | hx
    · rw [WORD_eq] at hx; omega
    · rw [htab, WORD_eq] at hx; omega
    · rw [htab, hw, WORD_eq] at hx; omega
  · rw [hloc]
    rintro x ⟨i, hi, rfl⟩ h
    rcases freelist_config_fresh_written h with ⟨j, hj, hx⟩ | hx | hx
    · rw [WORD_eq] at hx; omega
    · rw [htab2, WORD_eq] at hx; omega
    · rw [htab2, hw2, WORD_eq] at hx; omega
  · rw [hloc]
    rintro x ⟨i, hi, rfl⟩
    refine ⟨?_, fun h => ?_⟩
    · rintro ⟨j, hj, hx⟩
      rw [WORD_eq] at hx; omega
    · rcases freelist_config_fresh_written h with ⟨j, hj, hx⟩ | hx | hx
      · rw [WORD_eq] at hx; omega
      · rw [htab, WORD_eq] at hx; omega
      · rw [htab, hw, WORD_eq] at hx; omega

/-! ## Second part: invariants, rounding and frames -/

/-- Claim C13: when the alloc-table alignment is zero, `gc_update_alloc_table`
returns the memory it was given, for every object address and size. -/
theorem gc_update_alloc_table_no_table (cfg : gc_config) (m : Mem) (mutator : Nat)
    (obj : gc_ref) (size : Nat) (ha : cfg.gc_allocator_alloc_table_alignment = 0) :
    gc_update_alloc_table cfg m mutator obj size = .ok m := by
  unfold gc_update_alloc_table
  simp only [ha, if_true]

/-- Witness of `gc_update_alloc_table_no_table`: an object of 32 bytes at
`0x410000`, in a memory that holds a mutator. -/
theorem gc_update_alloc_table_no_table_witness :
    gc_update_alloc_table no_table_config (bump_mem 4096 4259840 4325376) 4096 ⟨4259840⟩ 32 =
      .ok (bump_mem 4096 4259840 4325376) :=
  gc_update_alloc_table_no_table no_table_config (bump_mem 4096 4259840 4325376) 4096
    ⟨4259840⟩ 32 rfl

/-- Claim C17: for a power-of-two granule and a size such that
`size + granule - 1` is a machine word, the rounding of
`gc_allocate_bump_pointer` is the least multiple of the granule that is at
least the size; a multiple of the granule is left as it is. -/
theorem bump_size_round_up (k size : Nat) (hk : k < 64) (hsize : size + 2 ^ k - 1 < WORD) :
    IsLeast {n | 2 ^ k ∣ n ∧ size ≤ n} (bump_size (2 ^ k) size) ∧
      (2 ^ k ∣ size → bump_size (2 ^ k) size = size) := by
  have hpos : 0 < 2 ^ k := Nat.pos_pow_of_pos _ (by omega)
  have hl : IsLeast {n | 2 ^ k ∣ n ∧ size ≤ n} (bump_size (2 ^ k) size) := by
    rw [bump_size_pow2 hk hsize]
    exact round_up_least hpos
  refine ⟨hl, fun hdvd => ?_⟩
  exact le_antisymm (hl.2 ⟨hdvd, le_refl _⟩) hl.1.2

/-- Witness of `bump_size_round_up`: granule 16 and size 20, rounded to 32. -/
theorem bump_size_round_up_witness :
    IsLeast {n | 2 ^ 4 ∣ n ∧ 20 ≤ n} (bump_size (2 ^ 4) 20) ∧
      (2 ^ 4 ∣ 20 → bump_size (2 ^ 4) 20 = 20) :=
  bump_size_round_up 4 20 (by decide) (by decide)

/-- Claim C20: with an alloc table, a nonzero granule size and a zero end
pattern, `gc_update_alloc_table` stores to one byte whatever the size of the
object: the table byte of the object's address receives the begin pattern and
every other byte keeps its value. -/
theorem gc_update_alloc_table_begin_only (cfg : gc_config) (m : Mem) (mutator : Nat)
    (obj : gc_ref) (size : Nat)
    (ha : cfg.gc_allocator_alloc_table_alignment ≠ 0)
    (hg : cfg.gc_allocator_small_granule_size ≠ 0)
    (he : cfg.gc_allocator_alloc_table_end_pattern = 0) :
    ∃ m1, gc_update_alloc_table cfg m mutator obj size = .ok m1 ∧
      load8 m1 (alloc_table_loc cfg obj.value) =
        cfg.gc_allocator_alloc_table_begin_pattern % 256 ∧
      ∀ x, x ≠ alloc_table_loc cfg obj.value → m1 x = m x := by
  rw [gc_update_alloc_table_no_end cfg m mutator obj size ha hg he]
  refine ⟨_, rfl, load8_store8_same _ _ _, fun x hx => store8_other _ _ _ ?_⟩
  rw [Nat.mod_eq_of_lt (alloc_table_loc_lt cfg obj.value)]
  exact hx

/-- Witness of `gc_update_alloc_table_begin_only`: an object of five granules
at `0x410000`. -/
theorem gc_update_alloc_table_begin_only_witness :
    ∃ m1, gc_update_alloc_table no_end_config (fun _ => 0) 4096 ⟨4259840⟩ 80 = .ok m1 ∧
      load8 m1 (alloc_table_loc no_end_config (gc_ref.mk 4259840).value) =
        no_end_config.gc_allocator_alloc_table_begin_pattern % 256 ∧
      ∀ x, x ≠ alloc_table_loc no_end_config (gc_ref.mk 4259840).value →
        m1 x = (fun _ => 0 : Mem) x :=
  gc_update_alloc_table_begin_only no_end_config (fun _ => 0) 4096 ⟨4259840⟩ 80
    (by decide) (by decide) rfl

/-- With a power-of-two alignment, the masks of the side-table lookups are a
division and a remainder: the location is the base of the aligned block plus
the offset inside the block divided by the unit. -/
theorem side_table_loc_pow2 {j u a : Nat} (hj : j < 64) (ha : a < WORD) :
    wadd (a &&& wnot (wsub (2 ^ j) 1)) ((a &&& wsub (2 ^ j) 1) / u) =
      a / 2 ^ j * 2 ^ j + a % 2 ^ j / u := by
  have hpos : 0 < 2 ^ j := Nat.pos_pow_of_pos _ (by omega)
  have hW : 2 ^ j < WORD := by unfold WORD; exact Nat.pow_lt_pow_right (by omega) hj
  rw [wsub_of_le hW hpos, and_wnot_pow2 ha (by omega), Nat.and_pow_two_sub_one_eq_mod]
  apply wadd_of_lt
  have h1 := Nat.div_add_mod a (2 ^ j)
  have h2 : a % 2 ^ j / u ≤ a % 2 ^ j := Nat.div_le_self _ _
  rw [Nat.mul_comm] at h1
  omega

/-- Division by `2 ^ c` seen from the blocks of `2 ^ j` bytes, `c ≤ j`. -/
theorem div_pow2_split {c j : Nat} (a : Nat) (hc : c ≤ j) :
    a / 2 ^ c = a / 2 ^ j * 2 ^ (j - c) + a % 2 ^ j / 2 ^ c := by
  have hpos : 0 < 2 ^ c := Nat.pos_pow_of_pos _ (by omega)
  have hA : 2 ^ j = 2 ^ c * 2 ^ (j - c) := by rw [← Nat.pow_add]; congr 1; omega
  conv_lhs => rw [← Nat.div_add_mod a (2 ^ j)]
  rw [hA, Nat.mul_assoc, Nat.mul_add_div hpos, ← hA, Nat.mul_comm (2 ^ (j - c))]

/-- The offset inside a block of `2 ^ j` bytes, divided by `2 ^ c`, is below
the number of units in a block. -/
theorem mod_div_pow2_lt {c j : Nat} (a : Nat) (hc : c ≤ j) :
    a % 2 ^ j / 2 ^ c < 2 ^ j / 2 ^ c := by
  have hpos : 0 < 2 ^ c := Nat.pos_pow_of_pos _ (by omega)
  have hA : 2 ^ j = 2 ^ (j - c) * 2 ^ c := by rw [← Nat.pow_add]; congr 1; omega
  have hq : 2 ^ j / 2 ^ c = 2 ^ (j - c) := by
    rw [hA]; exact Nat.mul_div_cancel _ hpos
  rw [hq, Nat.div_lt_iff_lt_mul hpos, ← hA]
  exact Nat.mod_lt _ (Nat.pos_pow_of_pos _ (by omega))

/-- Two addresses of one block of `2 ^ j` bytes have the same side-table
location exactly when they lie in the same unit of `2 ^ c` bytes. -/
theorem side_table_loc_eq_iff {c j a b : Nat} (hj : j < 64) (hc : c ≤ j)
    (ha : a < WORD) (hb : b < WORD) (hblock : a / 2 ^ j = b / 2 ^ j) :
    wadd (a &&& wnot (wsub (2 ^ j) 1)) ((a &&& wsub (2 ^ j) 1) / 2 ^ c) =
        wadd (b &&& wnot (wsub (2 ^ j) 1)) ((b &&& wsub (2 ^ j) 1) / 2 ^ c) ↔
      a / 2 ^ c = b / 2 ^ c := by
  rw [side_table_loc_pow2 hj ha, side_table_loc_pow2 hj hb, div_pow2_split a hc,
    div_pow2_split b hc, hblock]
  constructor <;> intro h <;> omega

/-- Claim C19: for a power-of-two alignment and a power-of-two granule size
not above it, two addresses of the same alignment-sized block have the same
alloc-table location exactly when they lie in the same granule, and the
location of an address is the base of its block plus an offset below
`alignment / granule_size`. -/
theorem alloc_table_loc_granule (cfg : gc_config) (j c a b : Nat)
    (hA : cfg.gc_allocator_alloc_table_alignment = 2 ^ j) (hj : j < 64)
    (hg : cfg.gc_allocator_small_granule_size = 2 ^ c) (hc : c ≤ j)
    (ha : a < WORD) (hb : b < WORD) (hblock : a / 2 ^ j = b / 2 ^ j) :
    (alloc_table_loc cfg a = alloc_table_loc cfg b ↔ a / 2 ^ c = b / 2 ^ c) ∧
    (a &&& wnot (wsub cfg.gc_allocator_alloc_table_alignment 1)) = a / 2 ^ j * 2 ^ j ∧
    ∃ off, off < cfg.gc_allocator_alloc_table_alignment /
        cfg.gc_allocator_small_granule_size ∧
      alloc_table_loc cfg a = a / 2 ^ j * 2 ^ j + off := by
  have hpos : 0 < 2 ^ j := Nat.pos_pow_of_pos _ (by omega)
  have hW : 2 ^ j < WORD := by unfold WORD; exact Nat.pow_lt_pow_right (by omega) hj
  unfold alloc_table_loc
  rw [hA, hg]
  refine ⟨side_table_loc_eq_iff hj hc ha hb hblock, ?_, a % 2 ^ j / 2 ^ c,
    mod_div_pow2_lt a hc, side_table_loc_pow2 hj ha⟩
  rw [wsub_of_le hW hpos, and_wnot_pow2 ha (by omega)]

/-- Witness of `alloc_table_loc_granule`: alignment 4 MiB, granule 16, the
addresses `0x410000` and `0x41000f` of one granule. -/
theorem alloc_table_loc_granule_witness :
    (alloc_table_loc bump_config 4259840 = alloc_table_loc bump_config 4259855 ↔
      4259840 / 2 ^ 4 = 4259855 / 2 ^ 4) ∧
    (4259840 &&& wnot (wsub bump_config.gc_allocator_alloc_table_alignment 1)) =
      4259840 / 2 ^ 22 * 2 ^ 22 ∧
    ∃ off, off < bump_config.gc_allocator_alloc_table_alignment /
        bump_config.gc_allocator_small_granule_size ∧
      alloc_table_loc bump_config 4259840 = 4259840 / 2 ^ 22 * 2 ^ 22 + off :=
  alloc_table_loc_granule bump_config 22 4 4259840 4259855 (by decide) (by decide)
    (by decide) (by decide) (by decide) (by decide) (by decide)

/-- The memory the card barrier returns. -/
theorem gc_small_write_barrier_card_eq (cfg : gc_config) (m : Mem) (obj : gc_ref)
    (edge : gc_edge) (new_val : gc_ref)
    (hkind : cfg.gc_small_write_barrier_kind = .GC_WRITE_BARRIER_CARD)
    (hcard : cfg.gc_small_write_barrier_card_size ≠ 0) :
    gc_small_write_barrier cfg m obj edge new_val =
      .ok (store8 m (card_loc cfg obj.value) 1) := by
  unfold gc_small_write_barrier card_loc gc_ref_value
  simp only [hkind, hcard, if_false]

theorem card_loc_lt (cfg : gc_config) (addr : Nat) : card_loc cfg addr < WORD :=
  wadd_lt _ _

/-- A sequence of card-barrier calls returns; it leaves every nonzero byte
nonzero and the card byte of every object of the sequence nonzero. -/
theorem gc_small_write_barrier_seq_marks (cfg : gc_config)
    (hkind : cfg.gc_small_write_barrier_kind = .GC_WRITE_BARRIER_CARD)
    (hcard : cfg.gc_small_write_barrier_card_size ≠ 0)
    (calls : List (gc_ref × gc_edge × gc_ref)) (m : Mem) :
    ∃ m1, gc_small_write_barrier_seq cfg m calls = .ok m1 ∧
      (∀ x, m x % 256 ≠ 0 → m1 x % 256 ≠ 0) ∧
      ∀ c ∈ calls, m1 (card_loc cfg c.1.value) % 256 ≠ 0 := by
  induction calls generalizing m with
  | nil => exact ⟨m, rfl, fun _ h => h, fun c hc => absurd hc (List.not_mem_nil c)⟩
  | cons c rest ih =>
    obtain ⟨m1, hres, hkeep, hmark⟩ := ih (store8 m (card_loc cfg c.1.value) 1)
    have hstep : ∀ x, m x % 256 ≠ 0 → store8 m (card_loc cfg c.1.value) 1 x % 256 ≠ 0 := by
      intro x hx
      unfold store8
      split_ifs
      · decide
      · exact hx
    refine ⟨m1, ?_, fun x hx => hkeep x (hstep x hx), fun d hd => ?_⟩
    · rw [gc_small_write_barrier_seq, gc_small_write_barrier_card_eq cfg m _ _ _ hkind hcard]
      exact hres
    · rcases List.mem_cons.1 hd with rfl | hd
      · apply hkeep
        have hs := store8_same m (card_loc cfg d.1.value) 1
        rw [Nat.mod_eq_of_lt (card_loc_lt cfg d.1.value)] at hs
        rw [hs]
        decide
      · exact hmark d hd

/-- With a power-of-two alignment and a power-of-two card size not above it,
two addresses of one range of `card_size` bytes have the same card location. -/
theorem card_loc_eq_of_div_eq (cfg : gc_config) {j c a b : Nat}
    (hA : cfg.gc_small_write_barrier_card_table_alignment = 2 ^ j) (hj : j < 64)
    (hcs : cfg.gc_small_write_barrier_card_size = 2 ^ c) (hc : c ≤ j)
    (ha : a < WORD) (hb : b < WORD) (h : a / 2 ^ c = b / 2 ^ c) :
    card_loc cfg a = card_loc cfg b := by
  have hblock : a / 2 ^ j = b / 2 ^ j := by
    have hJ : 2 ^ j = 2 ^ c * 2 ^ (j - c) := by rw [← Nat.pow_add]; congr 1; omega
    rw [hJ, ← Nat.div_div_eq_div_mul, ← Nat.div_div_eq_div_mul, h]
  unfold card_loc
  rw [hA, hcs]
  exact (side_table_loc_eq_iff hj hc ha hb hblock).2 h

/-- Claim C15: with the card strategy (and a nonzero card size), any finite
sequence of calls of `gc_small_write_barrier`, from any memory, returns; at the
end the card byte of every object address of the sequence is nonzero, and so is
the card byte of every address of the same card range (the same aligned block
and the same `card_size` range inside it; for a power-of-two alignment and
card size, every address with the same quotient by the card size); and every
byte that was nonzero before is nonzero at the end. -/
theorem gc_small_write_barrier_seq_invariant (cfg : gc_config) (m : Mem)
    (calls : List (gc_ref × gc_edge × gc_ref))
    (hkind : cfg.gc_small_write_barrier_kind = .GC_WRITE_BARRIER_CARD)
    (hcard : cfg.gc_small_write_barrier_card_size ≠ 0) :
    ∃ m1, gc_small_write_barrier_seq cfg m calls = .ok m1 ∧
      (∀ c ∈ calls, load8 m1 (card_loc cfg c.1.value) ≠ 0) ∧
      (∀ c ∈ calls, ∀ b, same_card cfg c.1.value b → load8 m1 (card_loc cfg b) ≠ 0) ∧
      (∀ j e, cfg.gc_small_write_barrier_card_table_alignment = 2 ^ j → j < 64 →
        cfg.gc_small_write_barrier_card_size = 2 ^ e → e ≤ j →
        ∀ c ∈ calls, ∀ b, c.1.value < WORD → b < WORD → c.1.value / 2 ^ e = b / 2 ^ e →
          load8 m1 (card_loc cfg b) ≠ 0) ∧
      ∀ x, load8 m x ≠ 0 → load8 m1 x ≠ 0 := by
  obtain ⟨m1, hres, hkeep, hmark⟩ := gc_small_write_barrier_seq_marks cfg hkind hcard calls m
  have h1 : ∀ c ∈ calls, load8 m1 (card_loc cfg c.1.value) ≠ 0 := by
    intro c hc
    unfold load8
    rw [Nat.mod_eq_of_lt (card_loc_lt cfg c.1.value)]
    exact hmark c hc
  refine ⟨m1, hres, h1, ?_, ?_, fun x hx => hkeep _ hx⟩
  · intro c hc b hb
    have hloc : card_loc cfg b = card_loc cfg c.1.value := by
      unfold card_loc
      rw [hb.1, hb.2]
    rw [hloc]
    exact h1 c hc
  · intro j e hA hj hcs he c hc b hcW hbW hdiv
    rw [← card_loc_eq_of_div_eq cfg hA hj hcs he hcW hbW hdiv]
    exact h1 c hc

/-- Witness of `gc_small_write_barrier_seq_invariant`: writes to the objects
at `0x410100` and `0x410000`, cards of 256 bytes in blocks of 4 MiB. -/
theorem gc_small_write_barrier_seq_invariant_witness :
    ∃ m1, gc_small_write_barrier_seq bump_config (fun _ => 0)
        [(⟨4260096⟩, ⟨4260104⟩, ⟨4259840⟩), (⟨4259840⟩, ⟨4259848⟩, ⟨4260096⟩)] = .ok m1 ∧
      (∀ c ∈ [((⟨4260096⟩, ⟨4260104⟩, ⟨4259840⟩) : gc_ref × gc_edge × gc_ref),
          (⟨4259840⟩, ⟨4259848⟩, ⟨4260096⟩)],
        load8 m1 (card_loc bump_config c.1.value) ≠ 0) ∧
      (∀ c ∈ [((⟨4260096⟩, ⟨4260104⟩, ⟨4259840⟩) : gc_ref × gc_edge × gc_ref),
          (⟨4259840⟩, ⟨4259848⟩, ⟨4260096⟩)],
        ∀ b, same_card bump_config c.1.value b → load8 m1 (card_loc bump_config b) ≠ 0) ∧
      (∀ j e, bump_config.gc_small_write_barrier_card_table_alignment = 2 ^ j → j < 64 →
        bump_config.gc_small_write_barrier_card_size = 2 ^ e → e ≤ j →
        ∀ c ∈ [((⟨4260096⟩, ⟨4260104⟩, ⟨4259840⟩) : gc_ref × gc_edge × gc_ref),
            (⟨4259840⟩, ⟨4259848⟩, ⟨4260096⟩)],
          ∀ b, c.1.value < WORD → b < WORD → c.1.value / 2 ^ e = b / 2 ^ e →
            load8 m1 (card_loc bump_config b) ≠ 0) ∧
      ∀ x, load8 (fun _ => 0 : Mem) x ≠ 0 → load8 m1 x ≠ 0 :=
  gc_small_write_barrier_seq_invariant bump_config (fun _ => 0)
    [(⟨4260096⟩, ⟨4260104⟩, ⟨4259840⟩), (⟨4259840⟩, ⟨4259848⟩, ⟨4260096⟩)] rfl (by decide)

/-- Claim C12, amended: for a power-of-two granule, a size within the
threshold served on the inline path of `gc_allocate_bump_pointer`, with
`hp + r` a machine word for `r` the least multiple of the granule that is at
least the size, and with the words `hp` and `limit` of the mutator apart from
each other and from the bytes that the zeroing and the alloc-table update
store to: after the call the stored `hp` is at most `limit`, `limit` is
unchanged, and the returned region `[result, result + r)` ends at or below
`limit`. -/
theorem gc_allocate_bump_pointer_limit (cfg : gc_config) (be : gc_backend) (m : Mem)
    (mutator size k r : Nat)
    (hg : cfg.gc_allocator_small_granule_size = 2 ^ k) (hk : k < 64)
    (hsize : size ≤ cfg.gc_allocator_large_threshold)
    (hr : IsLeast {n | 2 ^ k ∣ n ∧ size ≤ n} r)
    (hin : ¬ wadd (load_word m (hp_loc cfg mutator))
        (bump_size cfg.gc_allocator_small_granule_size size) >
      load_word m (limit_loc cfg mutator))
    (hword : load_word m (hp_loc cfg mutator) + r < WORD)
    (hsep : ∀ x, in_range (hp_loc cfg mutator) 8 x →
      ¬ fresh_written cfg (load_word m (hp_loc cfg mutator)) r x)
    (hsep2 : ∀ x, in_range (limit_loc cfg mutator) 8 x →
      ¬ in_range (hp_loc cfg mutator) 8 x ∧
        ¬ fresh_written cfg (load_word m (hp_loc cfg mutator)) r x) :
    ∃ m1 a, gc_allocate_bump_pointer cfg be m mutator size = .ok (m1, a) ∧
      load_word m1 (hp_loc cfg mutator) ≤ load_word m1 (limit_loc cfg mutator) ∧
      load_word m1 (limit_loc cfg mutator) = load_word m (limit_loc cfg mutator) ∧
      a + r ≤ load_word m1 (limit_loc cfg mutator) := by
  have hb : bump_size cfg.gc_allocator_small_granule_size size = r := by
    rw [hg]; exact bump_size_eq_least hk hr (by omega)
  have hnew : wadd (load_word m (hp_loc cfg mutator)) r = load_word m (hp_loc cfg mutator) + r :=
    wadd_of_lt hword
  have hpos : 0 < 2 ^ k := Nat.pos_pow_of_pos _ (by omega)
  obtain ⟨m1, hres, hframe⟩ := gc_allocate_bump_pointer_fast_frame cfg be m mutator size
    (fun h => h.2 hsize) (fun _ => by rw [hg]; omega) hin
  rw [hb, hnew] at hframe hin
  have hhp : load_word m1 (hp_loc cfg mutator) = load_word m (hp_loc cfg mutator) + r := by
    rw [load_word_congr m1 _ _ (fun x hx => hframe x (hsep x hx)),
      load_word_store_word _ _ hword]
  have hlim : load_word m1 (limit_loc cfg mutator) = load_word m (limit_loc cfg mutator) := by
    apply load_word_congr
    intro x hx
    rw [hframe x (hsep2 x hx).2, store_word_out _ _ _ (hsep2 x hx).1]
  refine ⟨m1, _, hres, ?_, hlim, ?_⟩
  · rw [hhp, hlim]; omega
  · rw [hlim]; omega

/-- Witness of `gc_allocate_bump_pointer_limit`: granule 16, `hp = 0x410000`,
`limit = 0x420000`, a request of 20 bytes. -/
theorem gc_allocate_bump_pointer_limit_witness :
    ∃ m1 a, gc_allocate_bump_pointer bump_config idle_backend
        (bump_mem 4096 4259840 4325376) 4096 20 = .ok (m1, a) ∧
      load_word m1 (hp_loc bump_config 4096) ≤ load_word m1 (limit_loc bump_config 4096) ∧
      load_word m1 (limit_loc bump_config 4096) =
        load_word (bump_mem 4096 4259840 4325376) (limit_loc bump_config 4096) ∧
      a + 32 ≤ load_word m1 (limit_loc bump_config 4096) :=
  gc_allocate_bump_pointer_limit bump_config idle_backend (bump_mem 4096 4259840 4325376)
    4096 20 4 32 rfl (by decide) (by decide) (round_up_least (g := 16) (s := 20) (by decide))
    (by decide) (by decide) bump_mem_separate.1 bump_mem_separate.2

/-- Claim C12 fails when `hp` plus the rounded size wraps around the machine
word: with `hp = 2 ^ 64 - 16 ≤ limit = 2 ^ 64 - 8` and a request of 16 bytes the
call takes the inline path and returns `hp`; the stored `hp` is then `0` and
`limit` is unchanged, but the region of 16 bytes from the result ends above
`limit`. -/
theorem gc_allocate_bump_pointer_limit_wraps :
    load_word (bump_mem 4096 18446744073709551600 18446744073709551608)
        (hp_loc bump_config 4096) ≤
      load_word (bump_mem 4096 18446744073709551600 18446744073709551608)
        (limit_loc bump_config 4096) ∧
    16 ≤ bump_config.gc_allocator_large_threshold ∧
    IsLeast {n | 16 ∣ n ∧ 16 ≤ n} 16 ∧
    result_addr (gc_allocate_bump_pointer bump_config idle_backend
      (bump_mem 4096 18446744073709551600 18446744073709551608) 4096 16) =
      some 18446744073709551600 ∧
    result_word (hp_loc bump_config 4096) (gc_allocate_bump_pointer bump_config idle_backend
      (bump_mem 4096 18446744073709551600 18446744073709551608) 4096 16) = some 0 ∧
    result_word (limit_loc bump_config 4096) (gc_allocate_bump_pointer bump_config idle_backend
      (bump_mem 4096 18446744073709551600 18446744073709551608) 4096 16) =
      some 18446744073709551608 ∧
    ¬ 18446744073709551600 + 16 ≤ 18446744073709551608 := by
  refine ⟨by decide, by decide, round_up_least (g := 16) (s := 16) (by decide), by decide,
    by decide, by decide, by decide⟩

/-- The pop of `gc_allocate_freelist`, with the memory it returns: the one of
the alloc-table update, made after the zeroing, made after the store to the
head slot. -/
theorem gc_allocate_freelist_fast_eq (cfg : gc_config) (be : gc_backend) (m : Mem)
    (mutator size : Nat)
    (hassert : ¬ (cfg.gc_debug = true ∧ ¬ size ≤ cfg.gc_allocator_large_threshold))
    (hg : cfg.gc_allocator_alloc_table_alignment ≠ 0 → cfg.gc_allocator_small_granule_size ≠ 0)
    (hhead : load_word m (freelist_loc cfg mutator size) ≠ 0) :
    ∃ m3, gc_update_alloc_table cfg
        (gc_clear_fresh_allocation cfg
          (store_word m (freelist_loc cfg mutator size)
            (load_word m (load_word m (freelist_loc cfg mutator size))))
          ⟨load_word m (freelist_loc cfg mutator size)⟩ size)
        mutator ⟨load_word m (freelist_loc cfg mutator size)⟩ size = .ok m3 ∧
      gc_allocate_freelist cfg be m mutator size =
        .ok (m3, load_word m (freelist_loc cfg mutator size)) := by
  obtain ⟨m3, h3⟩ := gc_update_alloc_table_ok cfg
    (gc_clear_fresh_allocation cfg
      (store_word m (freelist_loc cfg mutator size)
        (load_word m (load_word m (freelist_loc cfg mutator size))))
      ⟨load_word m (freelist_loc cfg mutator size)⟩ size)
    mutator ⟨load_word m (freelist_loc cfg mutator size)⟩ size hg
  refine ⟨m3, h3, ?_⟩
  unfold gc_allocate_freelist gc_ref_from_heap_object
  simp only [freelist_loc] at hhead h3 ⊢
  simp only [hassert, if_false, hhead, h3]

/-- The zeroing of a fresh object, where the backend asks for it. -/
theorem gc_clear_fresh_allocation_zero (cfg : gc_config) (m : Mem) (obj : gc_ref)
    (size : Nat) {x : Nat} (hc : cfg.gc_allocator_needs_clear = true)
    (hx : in_range obj.value size x) :
    gc_clear_fresh_allocation cfg m obj size x = 0 := by
  unfold gc_clear_fresh_allocation gc_ref_heap_object gc_ref_value
  simp only [hc, Bool.not_true, Bool.false_eq_true, if_false]
  exact memset_in _ _ _ _ hx

/-- The encoding that `gc_update_alloc_table` leaves for an object of `N ≥ 1`
granules, with a nonzero end pattern, and what it leaves alone. -/
theorem gc_update_alloc_table_encoded (cfg : gc_config) (m : Mem) (mutator : Nat)
    (obj : gc_ref) (N : Nat)
    (ha : cfg.gc_allocator_alloc_table_alignment ≠ 0)
    (hg : cfg.gc_allocator_small_granule_size ≠ 0)
    (he : cfg.gc_allocator_alloc_table_end_pattern ≠ 0)
    (hN : 1 ≤ N) (hsize : N * cfg.gc_allocator_small_granule_size < WORD) :
    ∃ m1, gc_update_alloc_table cfg m mutator obj
        (N * cfg.gc_allocator_small_granule_size) = .ok m1 ∧
      alloc_table_encoded cfg m1 (alloc_table_loc cfg obj.value) N ∧
      ∀ x, ¬ in_range (alloc_table_loc cfg obj.value) N x → m1 x = m x := by
  obtain ⟨m1, h1, hone, hmany, hframe⟩ :=
    gc_update_alloc_table_bytes cfg m mutator obj N ha hg he hN hsize
  refine ⟨m1, h1, ⟨fun h => (hone h).1, fun h => ?_⟩, hframe⟩
  obtain ⟨hb, hend, hmid⟩ := hmany h
  exact ⟨hb, hend, fun i hi hi0 => hmid i hi0 hi⟩

end Whippet
